import Mathlib

/-!
Verification of the jobsearch-mcp sync-and-classify pipeline.

This file shallowly embeds the Go source of the repository
(`internal/filter`, `internal/tracker`, `internal/database`,
`internal/classifier`, `internal/cli/markspam.go`) in Lean 4 and proves
the behavioural claims of its specification against the embedding.

Conventions of the embedding:
* Go strings are `List Char`; only the byte-level operations the code
  uses (`ToLower`, `Contains`, `HasPrefix`/`HasSuffix`, `Index`,
  `Split`, `EqualFold`, trimming) are modelled, ASCII-faithfully.
* `float64` values (scores, confidences) are modelled as exact
  rationals `ℚ`; `time.Time` is a rational timestamp measured in days,
  and `time.Since` takes the current instant as an explicit argument.
* Fallible store operations are modelled as total functions over an
  explicit `Store` value; the SQL bodies in
  `internal/database` (`show.go` embedded store code) are translated
  row-by-row over association lists kept in insertion order.
* Human-readable `Reason` strings (built with `fmt.Sprintf`) carry no
  decision content and are omitted from `Result`.
-/

/-- Go strings, viewed as their character sequences. -/
abbrev Str := List Char

/-- Convert a Lean string literal to the embedded string type. -/
def strOf (s : String) : Str := s.data

/-- Go `strings.ToLower` (ASCII range, as exercised by the code). -/
def toLowerStr (s : Str) : Str := s.map Char.toLower

/-- Go `strings.HasPrefix`. -/
def strStartsWith : Str → Str → Bool
  | _, [] => true
  | [], _ :: _ => false
  | a :: s, b :: p => a == b && strStartsWith s p

/-- Go `strings.HasSuffix`. -/
def strEndsWith (s p : Str) : Bool :=
  strStartsWith s.reverse p.reverse

/-- Go `strings.Contains`: `sub` occurs contiguously inside `s`. -/
def strContains : Str → Str → Bool
  | s, sub =>
    if strStartsWith s sub then true
    else
      match s with
      | [] => false
      | _ :: t => strContains t sub

/-- Go `strings.Index`, as an optional first match position. -/
def strIndex : Str → Str → Option Nat
  | s, sub =>
    if strStartsWith s sub then some 0
    else
      match s with
      | [] => none
      | _ :: t => (strIndex t sub).map Nat.succ

/-- Go `strings.TrimSuffix`: removes one copy of `p` when it is a suffix. -/
def strTrimSuffix (s p : Str) : Str :=
  if strEndsWith s p then s.take (s.length - p.length) else s

/-- Go `strings.TrimPrefix`: removes one leading copy of `p` when present. -/
def strTrimLeading (s p : Str) : Str :=
  if strStartsWith s p then s.drop p.length else s

/-- Go `strings.EqualFold` on the ASCII range: case-insensitive equality. -/
def eqFold (a b : Str) : Bool := toLowerStr a == toLowerStr b

/-- Go `strings.Split(s, sep)` for a single-character separator. -/
def splitOn (s : Str) (sep : Char) : List Str :=
  match s with
  | [] => [[]]
  | c :: t =>
    if c == sep then [] :: splitOn t sep
    else
      match splitOn t sep with
      | [] => [[c]]
      | h :: r => (c :: h) :: r

/-- `internal/email/types.go` `Address`: an email address with display name. -/
structure Address where
  name : Str
  email : Str
deriving DecidableEq, Repr

/-- `Address.Domain`: the lower-cased part after `@`, or empty unless the
address splits into exactly two parts. -/
def Address.domain (a : Address) : Str :=
  let parts := splitOn a.email '@'
  if parts.length ≠ 2 then [] else toLowerStr parts[1]!

/-- `internal/email/types.go` `Email`: a provider-agnostic message.
`date` is a timestamp in days; labels, read flag and headers carry no
filtering content and are omitted. -/
structure Email where
  id : Str
  threadId : Str
  subject : Str
  fromAddr : Address
  toAddrs : List Address
  date : ℚ
  snippet : Str
  body : Str
deriving DecidableEq, Repr

/-- `Email.Domain`: the sender's domain. -/
def Email.domain (e : Email) : Str := e.fromAddr.domain

/-- `Email.IsFromMe`: case-insensitive comparison with the user address. -/
def Email.isFromMe (e : Email) (myEmail : Str) : Bool :=
  eqFold e.fromAddr.email myEmail

/-- `internal/filter` `Layer`: which filtering layer decided. -/
inductive Layer where
  | whitelist
  | blacklist
  | keyword
  | uncertain
  | rejected
  | llm
deriving DecidableEq, Repr

/-- `internal/filter` `Result` (the human-readable `Reason` string omitted). -/
structure Result where
  included : Bool
  layer : Layer
  confidence : ℚ
deriving DecidableEq, Repr

/-- `internal/config` `FilterConfig`: the configured filter lists. -/
structure FilterConfig where
  domainWhitelist : List Str
  domainBlacklist : List Str
  subjectBlacklist : List Str
  subjectKeywords : List Str
  bodyKeywords : List Str
deriving DecidableEq, Repr

/-- `internal/filter` `Filter`: configuration plus learned lists and the
user address used to detect outbound messages. The `Scorer` weights and
thresholds are the constants installed by `filter.New` (subject weight 2,
body weight 1, include threshold 0.3, uncertain minimum 0.02). -/
structure EmailFilter where
  config : FilterConfig
  userEmail : Str
  learnedDomainWhitelist : List Str
  learnedDomainBlacklist : List Str
  learnedSubjectBlacklist : List Str
  learnedSubjectKeywords : List Str
  learnedBodyKeywords : List Str
deriving DecidableEq, Repr

/-- `filter.New cfg` followed by no learned additions. -/
def EmailFilter.new (cfg : FilterConfig) : EmailFilter :=
  ⟨cfg, [], [], [], [], [], []⟩

/-- `Filter.AddLearnedFilters` for the `domain_blacklist` kind, as invoked
by `SyncWithOptions` when loading the learned blacklist. -/
def EmailFilter.addLearnedDomainBlacklist (f : EmailFilter) (values : List Str) : EmailFilter :=
  { f with learnedDomainBlacklist := f.learnedDomainBlacklist ++ values }

/-- `Filter.GetAllDomainWhitelist`: config plus learned entries. -/
def EmailFilter.getAllDomainWhitelist (f : EmailFilter) : List Str :=
  f.config.domainWhitelist ++ f.learnedDomainWhitelist

/-- `Filter.GetAllDomainBlacklist`: config plus learned entries. -/
def EmailFilter.getAllDomainBlacklist (f : EmailFilter) : List Str :=
  f.config.domainBlacklist ++ f.learnedDomainBlacklist

/-- `Filter.GetAllSubjectBlacklist`: config plus learned entries. -/
def EmailFilter.getAllSubjectBlacklist (f : EmailFilter) : List Str :=
  f.config.subjectBlacklist ++ f.learnedSubjectBlacklist

/-- `Filter.GetAllSubjectKeywords`: config plus learned entries. -/
def EmailFilter.getAllSubjectKeywords (f : EmailFilter) : List Str :=
  f.config.subjectKeywords ++ f.learnedSubjectKeywords

/-- `Filter.GetAllBodyKeywords`: config plus learned entries. -/
def EmailFilter.getAllBodyKeywords (f : EmailFilter) : List Str :=
  f.config.bodyKeywords ++ f.learnedBodyKeywords

/-- `internal/filter/domain.go` `matchesDomainPattern`: exact domain match,
dotted-suffix match, exact or `user@`-style email match when the pattern
contains `@`, and bare-token containment in the domain. -/
def matchesDomainPattern (domain fullEmail pattern : Str) : Bool :=
  if domain == pattern then true
  else if strEndsWith domain ('.' :: pattern) then true
  else if strContains pattern [ '@' ] &&
      (fullEmail == pattern ||
        (strEndsWith pattern [ '@' ] && strStartsWith fullEmail pattern)) then true
  else if strContains domain (strTrimSuffix pattern [ '.' ]) then true
  else false

/-- `Filter.getRelevantAddress`: for an outbound message (sender equals the
configured user address) the first recipient's domain and address, empty
when there are no recipients; for inbound the sender's. -/
def EmailFilter.getRelevantAddress (f : EmailFilter) (e : Email) : Str × Str :=
  if f.userEmail ≠ [] ∧ eqFold e.fromAddr.email f.userEmail then
    match e.toAddrs with
    | a :: _ => (a.domain, toLowerStr a.email)
    | [] => ([], [])
  else
    (e.domain, toLowerStr e.fromAddr.email)

/-- `Filter.checkDomainWhitelist`: the first matching whitelist pattern, if
any, yields an include decision with confidence 1. -/
def EmailFilter.checkDomainWhitelist (f : EmailFilter) (e : Email) : Option Result :=
  let (domain, relevantEmail) := f.getRelevantAddress e
  if domain = [] then none
  else
    match f.getAllDomainWhitelist.find?
        (fun p => matchesDomainPattern domain relevantEmail (toLowerStr p)) with
    | some _ => some ⟨true, Layer.whitelist, 1⟩
    | none => none

/-- `Filter.checkDomainBlacklist`: the first matching blacklist pattern, if
any, yields an exclude decision with confidence 1. -/
def EmailFilter.checkDomainBlacklist (f : EmailFilter) (e : Email) : Option Result :=
  let (domain, relevantEmail) := f.getRelevantAddress e
  if domain = [] then none
  else
    match f.getAllDomainBlacklist.find?
        (fun p => matchesDomainPattern domain relevantEmail (toLowerStr p)) with
    | some _ => some ⟨false, Layer.blacklist, 1⟩
    | none => none

/-- `internal/filter/keyword.go` `checkSubjectBlacklist`: the first
blacklist pattern contained case-insensitively in the subject yields an
exclude decision with confidence 0.9. -/
def EmailFilter.checkSubjectBlacklist (f : EmailFilter) (e : Email) : Option Result :=
  let subjectLower := toLowerStr e.subject
  match f.getAllSubjectBlacklist.find?
      (fun p => strContains subjectLower (toLowerStr p)) with
  | some _ => some ⟨false, Layer.blacklist, 9/10⟩
  | none => none

/-- `internal/filter/keyword.go` `isWordChar`: ASCII alphanumeric. -/
def isWordChar (c : Char) : Bool :=
  ('a' ≤ c && c ≤ 'z') || ('A' ≤ c && c ≤ 'Z') || ('0' ≤ c && c ≤ '9')

/-- `containsWord` with explicit recursion fuel. The Go original recurses
on the text after the matched occurrence; fuel `text.length + 1` covers
every case in which the word is nonempty (on an empty word the Go code
does not terminate, which the fuel cuts off with `false`). -/
def containsWordFuel : Nat → Str → Str → Bool
  | 0, _, _ => false
  | fuel + 1, text, word =>
    if strContains word [ ' ' ] then strContains text word
    else
      match strIndex text word with
      | none => false
      | some idx =>
        if idx > 0 ∧ isWordChar (text.getD (idx - 1) ' ') then
          containsWordFuel fuel (text.drop (idx + word.length)) word
        else if idx + word.length < text.length ∧
            isWordChar (text.getD (idx + word.length) ' ') then
          containsWordFuel fuel (text.drop (idx + word.length)) word
        else true

/-- `internal/filter/keyword.go` `containsWord`: substring matching with
word-boundary awareness for single words, plain containment for phrases. -/
def containsWord (text word : Str) : Bool :=
  containsWordFuel (text.length + 1) text word

/-- `internal/filter/scorer.go` `Scorer.Calculate` at the weights installed
by `filter.New` (subject 2, body 1): the weighted average of the two hit
rates, with a 1.2 bonus capped at 1 when both counts are positive. -/
def scorerCalculate (subjectMatches totalSubjectKeywords bodyMatches totalBodyKeywords : ℕ) : ℚ :=
  if totalSubjectKeywords = 0 ∧ totalBodyKeywords = 0 then 0
  else
    let subjectScore : ℚ :=
      if totalSubjectKeywords > 0 then
        (subjectMatches : ℚ) / (totalSubjectKeywords : ℚ)
      else 0
    let bodyScore : ℚ :=
      if totalBodyKeywords > 0 then (bodyMatches : ℚ) / (totalBodyKeywords : ℚ)
      else 0
    let weightedScore := (subjectScore * 2 + bodyScore * 1) / (2 + 1)
    if subjectMatches > 0 ∧ bodyMatches > 0 then
      min 1 (weightedScore * (6/5))
    else weightedScore

/-- `internal/filter/keyword.go` `scoreKeywords`: count word-boundary
matches of the combined keyword lists against the lower-cased subject and
body (snippet substituting for an empty body), score them, and classify
against the include threshold 0.3 and uncertain minimum 0.02. -/
def EmailFilter.scoreKeywords (f : EmailFilter) (e : Email) : Result :=
  let subjectLower := toLowerStr e.subject
  let bodyLower₀ := toLowerStr e.body
  let bodyLower := if bodyLower₀ = [] then toLowerStr e.snippet else bodyLower₀
  let subjectKeywords := f.getAllSubjectKeywords
  let bodyKeywords := f.getAllBodyKeywords
  let subjectMatches :=
    (subjectKeywords.filter (fun kw => containsWord subjectLower (toLowerStr kw))).length
  let bodyMatches :=
    (bodyKeywords.filter (fun kw => containsWord bodyLower (toLowerStr kw))).length
  let score := scorerCalculate subjectMatches subjectKeywords.length
    bodyMatches bodyKeywords.length
  if score ≥ 3/10 then ⟨true, Layer.keyword, score⟩
  else if score ≥ 1/50 then ⟨false, Layer.uncertain, score⟩
  else ⟨false, Layer.rejected, 1 - score⟩

/-- `internal/filter/scorer.go` `Filter.Apply`: whitelist, then domain
blacklist, then subject blacklist, then keyword scoring. -/
def EmailFilter.apply (f : EmailFilter) (e : Email) : Result :=
  match f.checkDomainWhitelist e with
  | some r => r
  | none =>
    match f.checkDomainBlacklist e with
    | some r => r
    | none =>
      match f.checkSubjectBlacklist e with
      | some r => r
      | none => f.scoreKeywords e

/-- The message matches the whitelist layer: its relevant address has a
nonempty domain and some configured or learned whitelist entry matches. -/
def MatchesWhitelist (f : EmailFilter) (e : Email) : Prop :=
  (f.getRelevantAddress e).1 ≠ [] ∧
    ∃ p ∈ f.getAllDomainWhitelist,
      matchesDomainPattern (f.getRelevantAddress e).1
        (f.getRelevantAddress e).2 (toLowerStr p) = true

/-- The message matches the domain-blacklist layer. -/
def MatchesDomainBlacklist (f : EmailFilter) (e : Email) : Prop :=
  (f.getRelevantAddress e).1 ≠ [] ∧
    ∃ p ∈ f.getAllDomainBlacklist,
      matchesDomainPattern (f.getRelevantAddress e).1
        (f.getRelevantAddress e).2 (toLowerStr p) = true

/-- The message matches the subject-blacklist layer: some pattern is a
case-insensitive substring of the subject. -/
def MatchesSubjectBlacklist (f : EmailFilter) (e : Email) : Prop :=
  ∃ p ∈ f.getAllSubjectBlacklist,
    strContains (toLowerStr e.subject) (toLowerStr p) = true

instance (f : EmailFilter) (e : Email) : Decidable (MatchesWhitelist f e) := by
  unfold MatchesWhitelist; infer_instance

instance (f : EmailFilter) (e : Email) : Decidable (MatchesDomainBlacklist f e) := by
  unfold MatchesDomainBlacklist; infer_instance

instance (f : EmailFilter) (e : Email) : Decidable (MatchesSubjectBlacklist f e) := by
  unfold MatchesSubjectBlacklist; infer_instance

theorem checkDomainWhitelist_isSome (f : EmailFilter) (e : Email) :
    (f.checkDomainWhitelist e).isSome = true ↔ MatchesWhitelist f e := by
  unfold EmailFilter.checkDomainWhitelist MatchesWhitelist
  rcases h : f.getRelevantAddress e with ⟨d, r⟩
  dsimp only
  by_cases hd : d = []
  · simp [hd]
  · rw [if_neg hd]
    rcases hf : f.getAllDomainWhitelist.find?
        (fun p => matchesDomainPattern d r (toLowerStr p)) with _ | p
    · simp only [Option.isSome_none, Bool.false_eq_true, false_iff, not_and]
      rintro - ⟨q, hq, hmatch⟩
      have := List.find?_eq_none.mp hf q hq
      simp [hmatch] at this
    · simp only [Option.isSome_some, true_iff]
      exact ⟨hd, p, List.mem_of_find?_eq_some hf, by simpa using List.find?_some hf⟩

theorem checkDomainBlacklist_isSome (f : EmailFilter) (e : Email) :
    (f.checkDomainBlacklist e).isSome = true ↔ MatchesDomainBlacklist f e := by
  unfold EmailFilter.checkDomainBlacklist MatchesDomainBlacklist
  rcases h : f.getRelevantAddress e with ⟨d, r⟩
  dsimp only
  by_cases hd : d = []
  · simp [hd]
  · rw [if_neg hd]
    rcases hf : f.getAllDomainBlacklist.find?
        (fun p => matchesDomainPattern d r (toLowerStr p)) with _ | p
    · simp only [Option.isSome_none, Bool.false_eq_true, false_iff, not_and]
      rintro - ⟨q, hq, hmatch⟩
      have := List.find?_eq_none.mp hf q hq
      simp [hmatch] at this
    · simp only [Option.isSome_some, true_iff]
      exact ⟨hd, p, List.mem_of_find?_eq_some hf, by simpa using List.find?_some hf⟩

theorem checkSubjectBlacklist_isSome (f : EmailFilter) (e : Email) :
    (f.checkSubjectBlacklist e).isSome = true ↔ MatchesSubjectBlacklist f e := by
  unfold EmailFilter.checkSubjectBlacklist MatchesSubjectBlacklist
  dsimp only
  rcases hf : f.getAllSubjectBlacklist.find?
      (fun p => strContains (toLowerStr e.subject) (toLowerStr p)) with _ | p
  · simp only [Option.isSome_none, Bool.false_eq_true, false_iff]
    rintro ⟨q, hq, hmatch⟩
    have := List.find?_eq_none.mp hf q hq
    simp [hmatch] at this
  · simp only [Option.isSome_some, true_iff]
    exact ⟨p, List.mem_of_find?_eq_some hf, by simpa using List.find?_some hf⟩

theorem checkDomainWhitelist_shape (f : EmailFilter) (e : Email) (r : Result) :
    f.checkDomainWhitelist e = some r → r = ⟨true, Layer.whitelist, 1⟩ := by
  unfold EmailFilter.checkDomainWhitelist
  rcases f.getRelevantAddress e with ⟨d, rel⟩
  dsimp only
  split
  · simp
  · split <;> intro h <;> simp_all

theorem checkDomainBlacklist_shape (f : EmailFilter) (e : Email) (r : Result) :
    f.checkDomainBlacklist e = some r → r = ⟨false, Layer.blacklist, 1⟩ := by
  unfold EmailFilter.checkDomainBlacklist
  rcases f.getRelevantAddress e with ⟨d, rel⟩
  dsimp only
  split
  · simp
  · split <;> intro h <;> simp_all

theorem checkSubjectBlacklist_shape (f : EmailFilter) (e : Email) (r : Result) :
    f.checkSubjectBlacklist e = some r → r = ⟨false, Layer.blacklist, 9/10⟩ := by
  unfold EmailFilter.checkSubjectBlacklist
  dsimp only
  split <;> intro h <;> simp_all

/-- C1. `Filter.Apply` evaluates the admission layers in a fixed order and
the first decisive layer wins: a message matching any whitelist entry is
included as the whitelist layer with confidence 1 regardless of blacklist
entries; a message matching a domain-blacklist entry but no whitelist
entry is excluded as the blacklist layer with confidence 1; a message
matching a subject-blacklist pattern (a case-insensitive substring of the
subject) but no domain entry is excluded as the blacklist layer with
confidence 0.9; and the keyword layer is reached exactly when no
whitelist or blacklist entry fires. -/
theorem filter_apply_layer_priority (f : EmailFilter) (e : Email) :
    (MatchesWhitelist f e → f.apply e = ⟨true, Layer.whitelist, 1⟩) ∧
    (¬ MatchesWhitelist f e → MatchesDomainBlacklist f e →
      f.apply e = ⟨false, Layer.blacklist, 1⟩) ∧
    (¬ MatchesWhitelist f e → ¬ MatchesDomainBlacklist f e →
      MatchesSubjectBlacklist f e → f.apply e = ⟨false, Layer.blacklist, 9/10⟩) ∧
    (¬ MatchesWhitelist f e → ¬ MatchesDomainBlacklist f e →
      ¬ MatchesSubjectBlacklist f e → f.apply e = f.scoreKeywords e) := by
  refine ⟨?_, ?_, ?_, ?_⟩
  · intro hw
    have h1 := (checkDomainWhitelist_isSome f e).mpr hw
    obtain ⟨r, hr⟩ := Option.isSome_iff_exists.mp h1
    unfold EmailFilter.apply
    rw [hr]
    exact checkDomainWhitelist_shape f e r hr
  · intro hw hb
    have h1 : f.checkDomainWhitelist e = none := by
      rcases ho : f.checkDomainWhitelist e with _ | r
      · rfl
      · exact absurd ((checkDomainWhitelist_isSome f e).mp (by simp [ho])) hw
    have h2 := (checkDomainBlacklist_isSome f e).mpr hb
    obtain ⟨r, hr⟩ := Option.isSome_iff_exists.mp h2
    unfold EmailFilter.apply
    rw [h1, hr]
    exact checkDomainBlacklist_shape f e r hr
  · intro hw hb hs
    have h1 : f.checkDomainWhitelist e = none := by
      rcases ho : f.checkDomainWhitelist e with _ | r
      · rfl
      · exact absurd ((checkDomainWhitelist_isSome f e).mp (by simp [ho])) hw
    have h2 : f.checkDomainBlacklist e = none := by
      rcases ho : f.checkDomainBlacklist e with _ | r
      · rfl
      · exact absurd ((checkDomainBlacklist_isSome f e).mp (by simp [ho])) hb
    have h3 := (checkSubjectBlacklist_isSome f e).mpr hs
    obtain ⟨r, hr⟩ := Option.isSome_iff_exists.mp h3
    unfold EmailFilter.apply
    rw [h1, h2, hr]
    exact checkSubjectBlacklist_shape f e r hr
  · intro hw hb hs
    have h1 : f.checkDomainWhitelist e = none := by
      rcases ho : f.checkDomainWhitelist e with _ | r
      · rfl
      · exact absurd ((checkDomainWhitelist_isSome f e).mp (by simp [ho])) hw
    have h2 : f.checkDomainBlacklist e = none := by
      rcases ho : f.checkDomainBlacklist e with _ | r
      · rfl
      · exact absurd ((checkDomainBlacklist_isSome f e).mp (by simp [ho])) hb
    have h3 : f.checkSubjectBlacklist e = none := by
      rcases ho : f.checkSubjectBlacklist e with _ | r
      · rfl
      · exact absurd ((checkSubjectBlacklist_isSome f e).mp (by simp [ho])) hs
    unfold EmailFilter.apply
    rw [h1, h2, h3]

/-- Sample inbound message from an applicant-tracking domain, after the
whitelist scenario of the specification. -/
def sampleInbound : Email :=
  { id := strOf ("m1"), threadId := strOf ("t1"),
    subject := strOf ("Role at Acme"),
    fromAddr := { name := strOf ("Alice"), email := strOf ("alice@greenhouse.io") },
    toAddrs := [], date := 0, snippet := [], body := [] }

/-- Sample newsletter-style message used for the subject-blacklist path. -/
def sampleAlert : Email :=
  { id := strOf ("m2"), threadId := strOf ("t2"),
    subject := strOf ("Your weekly Job Alert"),
    fromAddr := { name := [], email := strOf ("digest@example.com") },
    toAddrs := [], date := 0, snippet := [], body := [] }

/-- Configuration whitelisting and blacklisting the same domain. -/
def sampleConfigBoth : FilterConfig :=
  { domainWhitelist := [strOf ("greenhouse.io")],
    domainBlacklist := [strOf ("greenhouse.io")],
    subjectBlacklist := [], subjectKeywords := [], bodyKeywords := [] }

/-- Configuration with only a domain-blacklist entry. -/
def sampleConfigBlack : FilterConfig :=
  { domainWhitelist := [], domainBlacklist := [strOf ("greenhouse.io")],
    subjectBlacklist := [], subjectKeywords := [], bodyKeywords := [] }

/-- Configuration with only a subject-blacklist pattern. -/
def sampleConfigSubject : FilterConfig :=
  { domainWhitelist := [], domainBlacklist := [],
    subjectBlacklist := [strOf ("job alert")],
    subjectKeywords := [], bodyKeywords := [] }

/-- Empty filter configuration. -/
def sampleConfigEmpty : FilterConfig :=
  { domainWhitelist := [], domainBlacklist := [], subjectBlacklist := [],
    subjectKeywords := [], bodyKeywords := [] }

/-- Witness for C1: each of the four layer-priority cases holds at a
concrete filter and message. -/
theorem filter_apply_layer_priority_witness :
    (EmailFilter.new sampleConfigBoth).apply sampleInbound
        = ⟨true, Layer.whitelist, 1⟩ ∧
    (EmailFilter.new sampleConfigBlack).apply sampleInbound
        = ⟨false, Layer.blacklist, 1⟩ ∧
    (EmailFilter.new sampleConfigSubject).apply sampleAlert
        = ⟨false, Layer.blacklist, 9/10⟩ ∧
    (EmailFilter.new sampleConfigEmpty).apply sampleAlert
        = (EmailFilter.new sampleConfigEmpty).scoreKeywords sampleAlert :=
  ⟨(filter_apply_layer_priority _ _).1 (by decide),
   (filter_apply_layer_priority _ _).2.1 (by decide) (by decide),
   (filter_apply_layer_priority _ _).2.2.1 (by decide) (by decide) (by decide),
   (filter_apply_layer_priority _ _).2.2.2 (by decide) (by decide) (by decide)⟩

/-- Keyword-layer outcome as the specification words it: the hit rates
are the fractions of the configured-plus-learned subject and body
keyword lists with a word-boundary match in the subject and in the body
(the snippet substituting when the body is empty); the score is
`(subject_hit_rate * 2 + body_hit_rate * 1) / 3`, multiplied by 1.2 and
capped at 1 when both hit counts are at least one; the outcome includes
at the keyword layer when the score is at least 0.30, is uncertain when
it lies in `[0.02, 0.30)`, and is rejected with confidence one minus the
score below 0.02. -/
def specKeywordOutcome (f : EmailFilter) (e : Email) : Result :=
  let subjectKeywords := f.getAllSubjectKeywords
  let bodyKeywords := f.getAllBodyKeywords
  let subjText := toLowerStr e.subject
  let bodyText :=
    if toLowerStr e.body = [] then toLowerStr e.snippet else toLowerStr e.body
  let subjHits :=
    (subjectKeywords.filter (fun kw => containsWord subjText (toLowerStr kw))).length
  let bodyHits :=
    (bodyKeywords.filter (fun kw => containsWord bodyText (toLowerStr kw))).length
  let subjRate : ℚ := (subjHits : ℚ) / (subjectKeywords.length : ℚ)
  let bodyRate : ℚ := (bodyHits : ℚ) / (bodyKeywords.length : ℚ)
  let base := (subjRate * 2 + bodyRate * 1) / 3
  let s := if 1 ≤ subjHits ∧ 1 ≤ bodyHits then min 1 (base * (6/5)) else base
  if s ≥ 3/10 then ⟨true, Layer.keyword, s⟩
  else if s ≥ 1/50 then ⟨false, Layer.uncertain, s⟩
  else ⟨false, Layer.rejected, 1 - s⟩

theorem scorerCalculate_eq_spec (sm st bm bt : ℕ) :
    scorerCalculate sm st bm bt =
      (if 1 ≤ sm ∧ 1 ≤ bm then
        min 1 (((((sm : ℚ) / st) * 2 + ((bm : ℚ) / bt) * 1) / 3) * (6/5))
      else (((sm : ℚ) / st) * 2 + ((bm : ℚ) / bt) * 1) / 3) := by
  unfold scorerCalculate
  have hs : ∀ m t : ℕ, (if t > 0 then (m : ℚ) / t else 0) = (m : ℚ) / t := by
    intro m t
    rcases Nat.eq_zero_or_pos t with ht | ht
    · subst ht; simp
    · rw [if_pos ht]
  by_cases h0 : st = 0 ∧ bt = 0
  · obtain ⟨h1, h2⟩ := h0
    subst h1; subst h2
    rw [if_pos ⟨rfl, rfl⟩]
    simp only [Nat.cast_zero, div_zero, zero_mul, zero_add, add_zero, zero_div]
    by_cases hb : 1 ≤ sm ∧ 1 ≤ bm
    · rw [if_pos hb]; norm_num
    · rw [if_neg hb]
  · rw [if_neg h0, hs, hs]
    have h21 : ((2 : ℚ) + 1) = 3 := by norm_num
    rw [h21]
    by_cases hb : sm > 0 ∧ bm > 0
    · rw [if_pos hb, if_pos ⟨hb.1, hb.2⟩]
    · rw [if_neg hb, if_neg (by exact fun hc => hb ⟨hc.1, hc.2⟩)]

/-- C2. For every message, the keyword layer computes exactly the score
of the specification and classifies it against the 0.30 and 0.02
thresholds: `scoreKeywords` agrees with the outcome stated by the
specification on every filter and message. -/
theorem scoreKeywords_eq_spec (f : EmailFilter) (e : Email) :
    f.scoreKeywords e = specKeywordOutcome f e := by
  unfold EmailFilter.scoreKeywords specKeywordOutcome
  dsimp only
  rw [scorerCalculate_eq_spec]

theorem getRelevantAddress_outbound_empty (f : EmailFilter) (e : Email)
    (hu : f.userEmail ≠ []) (hout : eqFold e.fromAddr.email f.userEmail = true)
    (hto : e.toAddrs = []) : f.getRelevantAddress e = ([], []) := by
  unfold EmailFilter.getRelevantAddress
  rw [hto, if_pos ⟨hu, hout⟩]

/-- C10. For an outbound message (sender equals the configured user
address) with an empty recipient list, the relevant address is empty, so
the domain whitelist and domain blacklist layers both return no decision
whatever entries they hold, and `Apply` falls through to the subject
blacklist and keyword layers. -/
theorem outbound_no_recipients_skips_domain_layers (f : EmailFilter) (e : Email)
    (hu : f.userEmail ≠ []) (hout : eqFold e.fromAddr.email f.userEmail = true)
    (hto : e.toAddrs = []) :
    f.checkDomainWhitelist e = none ∧ f.checkDomainBlacklist e = none ∧
      f.apply e = (match f.checkSubjectBlacklist e with
        | some r => r
        | none => f.scoreKeywords e) := by
  have h := getRelevantAddress_outbound_empty f e hu hout hto
  have h1 : f.checkDomainWhitelist e = none := by
    unfold EmailFilter.checkDomainWhitelist
    rw [h]
    rfl
  have h2 : f.checkDomainBlacklist e = none := by
    unfold EmailFilter.checkDomainBlacklist
    rw [h]
    rfl
  refine ⟨h1, h2, ?_⟩
  unfold EmailFilter.apply
  rw [h1, h2]

/-- Outbound message with no recipients, sent by the sample user. -/
def sampleOutboundNoRecipients : Email :=
  { id := strOf ("m3"), threadId := strOf ("t3"),
    subject := strOf ("following up"),
    fromAddr := { name := [], email := strOf ("Me@example.com") },
    toAddrs := [], date := 0, snippet := [], body := [] }

/-- Filter configured with both domain lists populated and the sample
user's address set. -/
def sampleOutboundFilter : EmailFilter :=
  { EmailFilter.new sampleConfigBoth with userEmail := strOf ("me@example.com") }

/-- Witness for C10 at a concrete outbound message with no recipients,
against a filter whose domain lists both contain entries. -/
theorem outbound_no_recipients_skips_domain_layers_witness :
    sampleOutboundFilter.checkDomainWhitelist sampleOutboundNoRecipients = none ∧
    sampleOutboundFilter.checkDomainBlacklist sampleOutboundNoRecipients = none ∧
    sampleOutboundFilter.apply sampleOutboundNoRecipients =
      (match sampleOutboundFilter.checkSubjectBlacklist sampleOutboundNoRecipients with
        | some r => r
        | none => sampleOutboundFilter.scoreKeywords sampleOutboundNoRecipients) :=
  outbound_no_recipients_skips_domain_layers sampleOutboundFilter
    sampleOutboundNoRecipients (by decide) (by decide) (by decide)

/-- `internal/database` `ConversationStatus`. -/
inductive ConversationStatus where
  | active
  | waitingOnMe
  | waitingOnThem
  | stale
  | closed
deriving DecidableEq, Repr

/-- `internal/database` `Direction`. -/
inductive Direction where
  | inbound
  | outbound
deriving DecidableEq, Repr

/-- `internal/database` `Email` (a stored row), restricted to the fields
the tracker reads and writes. `conversationId` keys into the conversation
rows; the opaque `extracted_data` JSON blob is omitted. -/
structure DBEmail where
  conversationId : ℕ
  gmailId : Str
  threadId : Str
  subject : Option Str
  fromAddress : Str
  fromName : Option Str
  date : ℚ
  direction : Direction
  snippet : Option Str
  classification : Option Str
  confidence : Option ℚ
deriving DecidableEq, Repr

/-- `internal/tracker` `isFromMe` on stored rows. -/
def DBEmail.isFromMe (e : DBEmail) (myEmail : Str) : Bool :=
  eqFold e.fromAddress myEmail

/-- The element `sort.Slice` (descending by `Date.After`) places first: a
maximal-date element of the list. Ties keep the earlier element, one of
the outcomes the unstable Go sort permits. -/
def maxByDateAux : DBEmail → List DBEmail → DBEmail
  | best, [] => best
  | best, e :: rest => maxByDateAux (if best.date < e.date then e else best) rest

/-- `internal/tracker/status.go` `ComputeStatus`: active for no emails;
stale when the days since the latest email exceed the threshold;
otherwise waiting-on-them when the latest email is the user's and
waiting-on-me when it is not. `now` is the current instant `time.Since`
reads, in days. -/
def ComputeStatus (emails : List DBEmail) (myEmail : Str) (staleAfterDays : ℕ)
    (now : ℚ) : ConversationStatus :=
  match emails with
  | [] => ConversationStatus.active
  | e :: rest =>
    let lastEmail := maxByDateAux e rest
    let daysSince := now - lastEmail.date
    if daysSince > (staleAfterDays : ℚ) then ConversationStatus.stale
    else if lastEmail.isFromMe myEmail then ConversationStatus.waitingOnThem
    else ConversationStatus.waitingOnMe

theorem maxByDateAux_mem (e : DBEmail) (rest : List DBEmail) :
    maxByDateAux e rest ∈ e :: rest := by
  induction rest generalizing e with
  | nil => simp [maxByDateAux]
  | cons r rs ih =>
    unfold maxByDateAux
    by_cases hc : e.date < r.date
    · rw [if_pos hc]
      rcases List.mem_cons.mp (ih r) with h1 | h1
      · rw [h1]; exact List.mem_cons_of_mem e (List.mem_cons_self r rs)
      · exact List.mem_cons_of_mem e (List.mem_cons_of_mem r h1)
    · rw [if_neg hc]
      rcases List.mem_cons.mp (ih e) with h1 | h1
      · rw [h1]; exact List.mem_cons_self e (r :: rs)
      · exact List.mem_cons_of_mem e (List.mem_cons_of_mem r h1)

theorem maxByDateAux_le (e : DBEmail) (rest : List DBEmail) :
    ∀ x ∈ e :: rest, x.date ≤ (maxByDateAux e rest).date := by
  induction rest generalizing e with
  | nil =>
    intro x hx
    rcases List.mem_cons.mp hx with h1 | h1
    · rw [h1]; exact le_refl _
    · cases h1
  | cons r rs ih =>
    intro x hx
    unfold maxByDateAux
    by_cases hc : e.date < r.date
    · rw [if_pos hc]
      rcases List.mem_cons.mp hx with h1 | h1
      · rw [h1]
        exact le_trans (le_of_lt hc) (ih r r (List.mem_cons_self r rs))
      · rcases List.mem_cons.mp h1 with h2 | h2
        · rw [h2]; exact ih r r (List.mem_cons_self r rs)
        · exact ih r x (List.mem_cons_of_mem r h2)
    · rw [if_neg hc]
      rcases List.mem_cons.mp hx with h1 | h1
      · rw [h1]; exact ih e e (List.mem_cons_self e rs)
      · rcases List.mem_cons.mp h1 with h2 | h2
        · rw [h2]
          exact le_trans (le_of_not_lt hc) (ih e e (List.mem_cons_self e rs))
        · exact ih e x (List.mem_cons_of_mem e h2)

/-- C3. `ComputeStatus` of an empty list is active, and for a nonempty
list there is a maximum-date email `last` in the list such that, with `d`
the days since `last`, the status is stale when `d` exceeds the
configured threshold, waiting-on-them when `d` is within the threshold
and `last` was sent from the user's address (case-insensitively), and
waiting-on-me otherwise. -/
theorem computeStatus_spec (emails : List DBEmail) (myEmail : Str)
    (S : ℕ) (now : ℚ) :
    ComputeStatus [] myEmail S now = ConversationStatus.active ∧
    (emails ≠ [] →
      ∃ last ∈ emails, (∀ x ∈ emails, x.date ≤ last.date) ∧
        ComputeStatus emails myEmail S now =
          (if now - last.date > (S : ℚ) then ConversationStatus.stale
           else if eqFold last.fromAddress myEmail then
             ConversationStatus.waitingOnThem
           else ConversationStatus.waitingOnMe)) := by
  constructor
  · rfl
  · intro h
    match emails with
    | [] => exact absurd rfl h
    | e :: rest =>
      refine ⟨maxByDateAux e rest, maxByDateAux_mem e rest,
        maxByDateAux_le e rest, ?_⟩
      rfl

/-- Emails of the stale-transition scenario: a single inbound message
eight days old against a seven-day threshold. -/
def sampleStaleRow : DBEmail :=
  { conversationId := 0, gmailId := strOf ("g1"), threadId := strOf ("t1"),
    subject := none, fromAddress := strOf ("recruiter@acme.com"),
    fromName := none, date := 0, direction := Direction.inbound,
    snippet := none, classification := none, confidence := none }

/-- Witness for C3 at the stale scenario: one inbound email eight days
before now with a seven-day threshold. -/
theorem computeStatus_spec_witness :
    ComputeStatus [] (strOf ("me@example.com")) 7 8 = ConversationStatus.active ∧
    ∃ last ∈ [sampleStaleRow], (∀ x ∈ [sampleStaleRow], x.date ≤ last.date) ∧
      ComputeStatus [sampleStaleRow] (strOf ("me@example.com")) 7 8 =
        (if (8 : ℚ) - last.date > ((7 : ℕ) : ℚ) then ConversationStatus.stale
         else if eqFold last.fromAddress (strOf ("me@example.com")) then
           ConversationStatus.waitingOnThem
         else ConversationStatus.waitingOnMe) :=
  ⟨(computeStatus_spec [sampleStaleRow] (strOf ("me@example.com")) 7 8).1,
   (computeStatus_spec [sampleStaleRow] (strOf ("me@example.com")) 7 8).2
     (by simp)⟩

/-- `internal/classifier` `ClassifyResponse`: the primary classifier's
structured verdict. -/
structure ClassifyResponse where
  isJobRelated : Bool
  confidence : ℚ
  company : Option Str
  position : Option Str
  recruiterName : Option Str
  classification : Option Str
  reasoning : Option Str
deriving DecidableEq, Repr

/-- `internal/classifier` `ValidateResponse`: the second-pass verdict. -/
structure ValidateResponse where
  finalVerdict : Bool
  confidence : ℚ
  reasoning : Option Str
deriving DecidableEq, Repr

/-- `internal/tracker/tracker.go` `confidenceHighThreshold` (0.8): above
this the validator is skipped. -/
def confidenceHighThreshold : ℚ := mkRat 4 5

/-- `internal/tracker/tracker.go` `confidenceMediumThreshold` (0.5):
between this and the high threshold the validator runs. -/
def confidenceMediumThreshold : ℚ := mkRat 1 2

/-- Outcome of the classification stage for one uncertain email: whether
it joins the processing list, the filter result it carries there, the
`Validated` flag, whether the validator was invoked, and whether an entry
was appended to the sync result's error list. -/
structure UncertainOutcome where
  included : Bool
  layer : Layer
  confidence : ℚ
  validated : Bool
  validatorCalled : Bool
  errorRecorded : Bool
deriving DecidableEq, Repr

/-- The classification stage of `SyncWithOptions` (tracker.go, the loop
over batch results and the validation pass) for one uncertain email with
original filter result `orig`: a classification error is recorded and the
email dropped; a non-job-related verdict drops it silently; a job-related
verdict with confidence in the medium band goes to the validator, whose
error includes conservatively with the original confidence (recording an
error, `Validated=false`), whose positive verdict includes with the
validator's confidence, and whose negative verdict drops the email,
recording an error exactly when the verdict carries a reasoning; any
other job-related verdict is included directly at the llm layer. `cl` is
`none` on classification error; `val` is `none` on validator error. -/
def processUncertainOutcome (orig : Result) (cl : Option ClassifyResponse)
    (val : Option ValidateResponse) : UncertainOutcome :=
  match cl with
  | none => ⟨false, orig.layer, orig.confidence, false, false, true⟩
  | some c =>
    if c.isJobRelated then
      if c.confidence < confidenceHighThreshold ∧
          confidenceMediumThreshold ≤ c.confidence then
        match val with
        | none => ⟨true, Layer.llm, c.confidence, false, true, true⟩
        | some v =>
          if v.finalVerdict then ⟨true, Layer.llm, v.confidence, true, true, false⟩
          else ⟨false, orig.layer, orig.confidence, false, true, v.reasoning.isSome⟩
      else ⟨true, Layer.llm, c.confidence, false, false, false⟩
    else ⟨false, orig.layer, orig.confidence, false, false, false⟩

/-- The original filter result an uncertain email carries into the
classification stage. -/
def sampleUncertainResult : Result := ⟨false, Layer.uncertain, mkRat 1 10⟩

/-- A job-related verdict with confidence 0.3, below the medium band. -/
def sampleLowConfVerdict : ClassifyResponse :=
  ⟨true, mkRat 3 10, none, none, none, none, none⟩

/-- A job-related verdict with confidence 0.6, inside the medium band. -/
def sampleMidConfVerdict : ClassifyResponse :=
  ⟨true, mkRat 3 5, none, none, none, none, none⟩

/-- A rejecting validator verdict that carries no reasoning. -/
def sampleRejectNoReason : ValidateResponse := ⟨false, mkRat 1 2, none⟩

/-- Counterexample to C4 as stated. First, a message the primary
classifier marks job-related with confidence 0.3 — below the medium
band — is included at the llm layer without any validator call, so it is
false that no message with a job-related confidence below 0.5 is
included. Second, a medium-band message whose validator verdict is
`final_verdict=false` with no reasoning attached is excluded without
recording any error for audit. -/
theorem validator_band_counterexample :
    (processUncertainOutcome sampleUncertainResult
        (some sampleLowConfVerdict) none).included = true ∧
    (processUncertainOutcome sampleUncertainResult
        (some sampleLowConfVerdict) none).validatorCalled = false ∧
    (processUncertainOutcome sampleUncertainResult
        (some sampleMidConfVerdict) (some sampleRejectNoReason)).included = false ∧
    (processUncertainOutcome sampleUncertainResult
        (some sampleMidConfVerdict) (some sampleRejectNoReason)).errorRecorded
        = false := by
  refine ⟨?_, ?_, ?_, ?_⟩ <;> rfl

/-- C4 as amended. The validator is invoked exactly for job-related
verdicts with confidence in `[0.5, 0.8)`; there, a positive final verdict
includes the message at the llm layer with the validator's confidence, a
negative one excludes it and records an error exactly when the validator
supplied a reasoning, and a validator error includes it conservatively
with its original confidence and `validated=false`; a job-related verdict
with confidence at least 0.8 is included without a validator call, and so
is one below 0.5 (the code does not drop them); a non-job-related verdict
is never included. -/
theorem processUncertainOutcome_notJob (orig : Result) (cl : ClassifyResponse)
    (val : Option ValidateResponse) (h : cl.isJobRelated = false) :
    processUncertainOutcome orig (some cl) val
      = ⟨false, orig.layer, orig.confidence, false, false, false⟩ := by
  unfold processUncertainOutcome
  dsimp only
  rw [if_neg (by simp [h])]

theorem processUncertainOutcome_outOfBand (orig : Result) (cl : ClassifyResponse)
    (val : Option ValidateResponse) (h : cl.isJobRelated = true)
    (hb : ¬ (cl.confidence < confidenceHighThreshold ∧
      confidenceMediumThreshold ≤ cl.confidence)) :
    processUncertainOutcome orig (some cl) val
      = ⟨true, Layer.llm, cl.confidence, false, false, false⟩ := by
  unfold processUncertainOutcome
  dsimp only
  rw [if_pos h, if_neg hb]

theorem processUncertainOutcome_valErr (orig : Result) (cl : ClassifyResponse)
    (h : cl.isJobRelated = true)
    (hb : cl.confidence < confidenceHighThreshold ∧
      confidenceMediumThreshold ≤ cl.confidence) :
    processUncertainOutcome orig (some cl) none
      = ⟨true, Layer.llm, cl.confidence, false, true, true⟩ := by
  unfold processUncertainOutcome
  dsimp only
  rw [if_pos h, if_pos hb]

theorem processUncertainOutcome_valSome (orig : Result) (cl : ClassifyResponse)
    (v : ValidateResponse) (h : cl.isJobRelated = true)
    (hb : cl.confidence < confidenceHighThreshold ∧
      confidenceMediumThreshold ≤ cl.confidence) :
    processUncertainOutcome orig (some cl) (some v)
      = (if v.finalVerdict then ⟨true, Layer.llm, v.confidence, true, true, false⟩
         else ⟨false, orig.layer, orig.confidence, false, true,
            v.reasoning.isSome⟩) := by
  unfold processUncertainOutcome
  dsimp only
  rw [if_pos h, if_pos hb]

theorem validator_band_spec (orig : Result) (cl : ClassifyResponse)
    (val : Option ValidateResponse) :
    ((processUncertainOutcome orig (some cl) val).validatorCalled = true ↔
      (cl.isJobRelated = true ∧ confidenceMediumThreshold ≤ cl.confidence ∧
        cl.confidence < confidenceHighThreshold)) ∧
    (cl.isJobRelated = true → confidenceMediumThreshold ≤ cl.confidence →
      cl.confidence < confidenceHighThreshold →
      (∀ v, val = some v → v.finalVerdict = true →
        processUncertainOutcome orig (some cl) val
          = ⟨true, Layer.llm, v.confidence, true, true, false⟩) ∧
      (∀ v, val = some v → v.finalVerdict = false →
        processUncertainOutcome orig (some cl) val
          = ⟨false, orig.layer, orig.confidence, false, true, v.reasoning.isSome⟩) ∧
      (val = none →
        processUncertainOutcome orig (some cl) val
          = ⟨true, Layer.llm, cl.confidence, false, true, true⟩)) ∧
    (cl.isJobRelated = true →
      confidenceHighThreshold ≤ cl.confidence ∨
        cl.confidence < confidenceMediumThreshold →
      processUncertainOutcome orig (some cl) val
        = ⟨true, Layer.llm, cl.confidence, false, false, false⟩) ∧
    (cl.isJobRelated = false →
      processUncertainOutcome orig (some cl) val
        = ⟨false, orig.layer, orig.confidence, false, false, false⟩) := by
  by_cases hj : cl.isJobRelated = true
  · by_cases hband : cl.confidence < confidenceHighThreshold ∧
        confidenceMediumThreshold ≤ cl.confidence
    · refine ⟨?_, ?_, ?_, ?_⟩
      · rcases val with _ | v
        · rw [processUncertainOutcome_valErr orig cl hj hband]
          simp [hj, hband.1, hband.2]
        · rw [processUncertainOutcome_valSome orig cl v hj hband]
          by_cases hfv : v.finalVerdict = true
          · rw [if_pos hfv]; simp [hj, hband.1, hband.2]
          · rw [if_neg hfv]; simp [hj, hband.1, hband.2]
      · intro _ _ _
        refine ⟨?_, ?_, ?_⟩
        · intro w hw hwf
          rw [hw, processUncertainOutcome_valSome orig cl w hj hband, if_pos hwf]
        · intro w hw hwf
          rw [hw, processUncertainOutcome_valSome orig cl w hj hband,
            if_neg (by simp [hwf])]
        · intro hn
          rw [hn, processUncertainOutcome_valErr orig cl hj hband]
      · intro _ hout
        rcases hout with hge | hlt
        · exact absurd hband.1 (not_lt.mpr hge)
        · exact absurd hband.2 (not_le.mpr hlt)
      · intro hf; rw [hj] at hf; cases hf
    · refine ⟨?_, ?_, ?_, ?_⟩
      · rw [processUncertainOutcome_outOfBand orig cl val hj hband]
        simp only [UncertainOutcome.mk.injEq]
        constructor
        · intro hfalse; cases hfalse
        · rintro ⟨-, hmed, hhigh⟩; exact absurd ⟨hhigh, hmed⟩ hband
      · intro _ hmed hhigh; exact absurd ⟨hhigh, hmed⟩ hband
      · intro _ _
        exact processUncertainOutcome_outOfBand orig cl val hj hband
      · intro hf; rw [hj] at hf; cases hf
  · have hj' : cl.isJobRelated = false := by simpa using hj
    refine ⟨?_, ?_, ?_, ?_⟩
    · rw [processUncertainOutcome_notJob orig cl val hj']
      constructor
      · intro hfalse; cases hfalse
      · rintro ⟨hj2, -⟩; exact absurd hj2 hj
    · intro hj2; exact absurd hj2 hj
    · intro hj2; exact absurd hj2 hj
    · intro _; exact processUncertainOutcome_notJob orig cl val hj'

/-- An accepting validator verdict with confidence 0.7. -/
def sampleAcceptVerdict : ValidateResponse := ⟨true, mkRat 7 10, none⟩

/-- Witness for the amended C4: a job-related verdict with confidence 0.6
goes through the validator, whose positive verdict includes the message
at the llm layer with the validator's confidence 0.7. -/
theorem validator_band_spec_witness :
    processUncertainOutcome sampleUncertainResult (some sampleMidConfVerdict)
        (some sampleAcceptVerdict)
      = ⟨true, Layer.llm, mkRat 7 10, true, true, false⟩ :=
  ((validator_band_spec sampleUncertainResult sampleMidConfVerdict
      (some sampleAcceptVerdict)).2.1 (by decide) (by decide) (by decide)).1
    sampleAcceptVerdict rfl (by decide)

/-- `internal/database` `Conversation` row, restricted to the fields the
tracker reads and writes (`created_at`/`updated_at` bookkeeping times are
omitted). -/
structure ConvRow where
  id : ℕ
  company : Str
  position : Option Str
  recruiterName : Option Str
  recruiterEmail : Option Str
  direction : Direction
  status : ConversationStatus
  lastActivityAt : ℚ
  emailCount : ℕ
  archived : Bool
deriving DecidableEq, Repr

/-- The relational store: conversation and email rows in insertion order,
with the next fresh conversation id (modelling uuid assignment). -/
structure Store where
  convs : List ConvRow
  emails : List DBEmail
  nextId : ℕ
deriving DecidableEq, Repr

/-- Lookup of a conversation row by id. -/
def Store.findConv (s : Store) (id : ℕ) : Option ConvRow :=
  s.convs.find? (fun c => c.id == id)

/-- `GetConversationByThreadID`: the inner join of conversations and
emails on the conversation id, restricted to the thread id, first row
(rows in insertion order). -/
def Store.getConversationByThreadID (s : Store) (tid : Str) : Option ConvRow :=
  match s.emails.find? (fun e =>
      e.threadId == tid && (s.findConv e.conversationId).isSome) with
  | some e => s.findConv e.conversationId
  | none => none

/-- Modelled from the spec: `GetConversationByRecruiterEmail`, whose SQL
body is not among the repository's files; the specification words it as
finding a conversation whose `recruiter_email` equals the given address
case-insensitively. First row in insertion order. -/
def Store.getConversationByRecruiterEmail (s : Store) (em : Str) : Option ConvRow :=
  s.convs.find? (fun c =>
    match c.recruiterEmail with
    | some r => eqFold r em
    | none => false)

/-- `GetEmailByGmailID`: lookup of an email row by provider id. -/
def Store.getEmailByGmailID (s : Store) (gid : Str) : Option DBEmail :=
  s.emails.find? (fun e => e.gmailId == gid)

/-- `CreateEmail`: appends the row. -/
def Store.createEmail (s : Store) (e : DBEmail) : Store :=
  { s with emails := s.emails ++ [e] }

/-- `CreateConversation`: appends the row under a fresh id. -/
def Store.createConversation (s : Store) (c : ConvRow) : ConvRow × Store :=
  let c' := { c with id := s.nextId }
  (c', { s with convs := s.convs ++ [c'], nextId := s.nextId + 1 })

/-- `IncrementEmailCount`: adds one to the row's email count. -/
def Store.incrementEmailCount (s : Store) (id : ℕ) : Store :=
  { s with convs := s.convs.map (fun c =>
      if c.id == id then { c with emailCount := c.emailCount + 1 } else c) }

/-- `UpdateConversation`: replaces the row with the given id by the given
record. -/
def Store.updateConversation (s : Store) (c : ConvRow) : Store :=
  { s with convs := s.convs.map (fun x => if x.id == c.id then c else x) }

/-- `internal/filter/domain.go` `ExtractCompanyFromDomain` suffix list. -/
def companySuffixes : List Str :=
  [strOf (".com"), strOf (".io"), strOf (".co"), strOf (".net"),
   strOf (".org"), strOf (".ai"), strOf (".app"), strOf (".jobs"),
   strOf (".careers"), strOf (".work"), strOf (".hire")]

/-- `ExtractCompanyFromDomain` leading-part list. -/
def companyLeads : List Str :=
  [strOf ("mail."), strOf ("email."), strOf ("jobs."), strOf ("careers."),
   strOf ("recruiting."), strOf ("talent."), strOf ("hr."), strOf ("hire."),
   strOf ("apply."), strOf ("www.")]

/-- `ExtractCompanyFromDomain` known applicant-tracking-system names. -/
def atsDomains : List Str :=
  [strOf ("greenhouse"), strOf ("lever"), strOf ("ashbyhq"),
   strOf ("smartrecruiters"), strOf ("workday"), strOf ("myworkdayjobs"),
   strOf ("icims"), strOf ("taleo"), strOf ("jobvite"), strOf ("breezy")]

/-- `internal/filter/domain.go` `ExtractCompanyFromDomain`: strip the
common suffixes then the common leading parts, return empty for a known
ATS name, else capitalise the first character. -/
def ExtractCompanyFromDomain (domain : Str) : Str :=
  let name := companySuffixes.foldl (fun n suf => strTrimSuffix n suf) domain
  let name := companyLeads.foldl (fun n p => strTrimLeading n p) name
  if atsDomains.contains name then []
  else
    match name with
    | [] => []
    | c :: rest => Char.toUpper c :: rest

/-- `internal/tracker/tracker.go` `extractCompanyName`: the LLM-extracted
company when nonempty; otherwise the LinkedIn special case on the
relevant address; otherwise the domain-derived name, falling back to the
raw domain when the heuristic returns empty (ATS domains). -/
def extractCompanyName (userEmail : Str) (e : Email)
    (cl : Option ClassifyResponse) : Str :=
  let (relevantEmail, relevantName, relevantDomain) :=
    if e.isFromMe userEmail ∧ e.toAddrs ≠ [] then
      match e.toAddrs with
      | a :: _ => (a.email, a.name, a.domain)
      | [] => (e.fromAddr.email, e.fromAddr.name, e.domain)
    else (e.fromAddr.email, e.fromAddr.name, e.domain)
  let isLinkedInInMail := strContains (toLowerStr relevantEmail) (strOf ("linkedin.com"))
  let llmCompany : Option Str :=
    match cl with
    | some c =>
      match c.company with
      | some comp => if comp = [] then none else some comp
      | none => none
    | none => none
  match llmCompany with
  | some comp => comp
  | none =>
    if isLinkedInInMail then
      if relevantName ≠ [] then relevantName ++ strOf (" (via LinkedIn)")
      else strOf ("LinkedIn InMail")
    else
      let company := ExtractCompanyFromDomain relevantDomain
      if company = [] then relevantDomain else company

/-- The address `findOrCreateConversation` groups by: the sender, or for
outbound messages the first recipient when one exists (the sender — the
user's own address — otherwise). -/
def grouperRecruiterEmail (userEmail : Str) (e : Email) : Str :=
  if e.isFromMe userEmail then
    match e.toAddrs with
    | a :: _ => a.email
    | [] => e.fromAddr.email
  else e.fromAddr.email

/-- `internal/tracker/tracker.go` `findOrCreateConversation`: attach to
the conversation holding an email of the same thread; else attach to the
conversation with the grouping recruiter email; else create a new
conversation (status active, recruiter fields from the relevant address,
overridden by nonempty LLM extractions). Returns the conversation, the
is-new flag and the store. -/
def findOrCreateConversation (userEmail : Str) (s : Store) (e : Email)
    (cl : Option ClassifyResponse) : ConvRow × Bool × Store :=
  match s.getConversationByThreadID e.threadId with
  | some conv => (conv, false, s)
  | none =>
    match s.getConversationByRecruiterEmail (grouperRecruiterEmail userEmail e) with
    | some conv => (conv, false, s)
    | none =>
      let isOutbound := e.isFromMe userEmail
      let direction := if isOutbound then Direction.outbound else Direction.inbound
      let company := extractCompanyName userEmail e cl
      let (recruiterEmail, recruiterName) :=
        if isOutbound ∧ e.toAddrs ≠ [] then
          match e.toAddrs with
          | a :: _ => (a.email, a.name)
          | [] => (e.fromAddr.email, e.fromAddr.name)
        else (e.fromAddr.email, e.fromAddr.name)
      let recruiterName :=
        match cl with
        | some c =>
          match c.recruiterName with
          | some rn => if rn = [] then recruiterName else rn
          | none => recruiterName
        | none => recruiterName
      let position : Option Str :=
        match cl with
        | some c =>
          match c.position with
          | some p => if p = [] then none else some p
          | none => none
        | none => none
      let conv : ConvRow :=
        { id := 0, company := company, position := position,
          recruiterName := some recruiterName,
          recruiterEmail := some recruiterEmail, direction := direction,
          status := ConversationStatus.active, lastActivityAt := e.date,
          emailCount := 0, archived := false }
      let (c', s') := s.createConversation conv
      (c', true, s')

/-- The stored name of a filter layer. -/
def layerName : Layer → Str
  | Layer.whitelist => strOf ("whitelist")
  | Layer.blacklist => strOf ("blacklist")
  | Layer.keyword => strOf ("keyword")
  | Layer.uncertain => strOf ("uncertain")
  | Layer.rejected => strOf ("rejected")
  | Layer.llm => strOf ("llm")

/-- The email row `processEmail` inserts for a message attached to a
conversation (the opaque `extracted_data` JSON is omitted). -/
def mkEmailRow (userEmail : Str) (e : Email) (res : Result) (convId : ℕ) : DBEmail :=
  { conversationId := convId, gmailId := e.id, threadId := e.threadId,
    subject := some e.subject, fromAddress := e.fromAddr.email,
    fromName := some e.fromAddr.name, date := e.date,
    direction := if e.isFromMe userEmail then Direction.outbound
      else Direction.inbound,
    snippet := some e.snippet, classification := some (layerName res.layer),
    confidence := some res.confidence }

/-- `internal/tracker/tracker.go` `processEmail`: skip silently when the
provider id already has a row; otherwise find or create the conversation,
insert the email row, increment the conversation's email count, and when
the message is later than the conversation's last activity write the
conversation back with the new `last_activity_at` (the in-memory record,
whose email count predates the increment). Returns the store, whether the
message was stored, and whether a conversation was created. -/
def processEmail (userEmail : Str) (s : Store) (e : Email)
    (cl : Option ClassifyResponse) (res : Result) : Store × Bool × Bool :=
  match s.getEmailByGmailID e.id with
  | some _ => (s, false, false)
  | none =>
    let fc := findOrCreateConversation userEmail s e cl
    let conv := fc.1
    let isNew := fc.2.1
    let s₁ := fc.2.2
    let s₂ := s₁.createEmail (mkEmailRow userEmail e res conv.id)
    let s₃ := s₂.incrementEmailCount conv.id
    if conv.lastActivityAt < e.date then
      (s₃.updateConversation { conv with lastActivityAt := e.date }, true, isNew)
    else (s₃, true, isNew)

theorem find?_append_of_none {α} (p : α → Bool) (l₁ l₂ : List α)
    (h : l₁.find? p = none) : (l₁ ++ l₂).find? p = l₂.find? p := by
  induction l₁ with
  | nil => rfl
  | cons a l ih =>
    cases hp : p a with
    | true =>
      rw [List.find?_cons_of_pos _ hp] at h
      cases h
    | false =>
      rw [List.find?_cons_of_neg _ (by simp [hp])] at h
      rw [List.cons_append, List.find?_cons_of_neg _ (by simp [hp])]
      exact ih h

theorem findOrCreateConversation_emails (u : Str) (s : Store) (e : Email)
    (cl : Option ClassifyResponse) :
    (findOrCreateConversation u s e cl).2.2.emails = s.emails := by
  unfold findOrCreateConversation
  rcases s.getConversationByThreadID e.threadId with _ | conv
  · rcases s.getConversationByRecruiterEmail (grouperRecruiterEmail u e)
      with _ | conv
    · rfl
    · rfl
  · rfl

theorem processEmail_emails (u : Str) (s : Store) (e : Email)
    (cl : Option ClassifyResponse) (res : Result)
    (h : s.getEmailByGmailID e.id = none) :
    (processEmail u s e cl res).1.emails =
      s.emails ++ [mkEmailRow u e res (findOrCreateConversation u s e cl).1.id] := by
  unfold processEmail
  rw [h]
  dsimp only
  by_cases hd : (findOrCreateConversation u s e cl).1.lastActivityAt < e.date
  · rw [if_pos hd]
    simp only [Store.updateConversation, Store.incrementEmailCount, Store.createEmail]
    rw [findOrCreateConversation_emails]
  · rw [if_neg hd]
    simp only [Store.incrementEmailCount, Store.createEmail]
    rw [findOrCreateConversation_emails]

theorem processEmail_lookup_self (u : Str) (s : Store) (e : Email)
    (cl : Option ClassifyResponse) (res : Result)
    (h : s.getEmailByGmailID e.id = none) :
    (processEmail u s e cl res).1.getEmailByGmailID e.id =
      some (mkEmailRow u e res (findOrCreateConversation u s e cl).1.id) := by
  have hemails := processEmail_emails u s e cl res h
  unfold Store.getEmailByGmailID at h ⊢
  rw [hemails, find?_append_of_none _ _ _ h,
    List.find?_cons_of_pos _ (by simp [mkEmailRow])]

theorem processEmail_skip (u : Str) (s : Store) (e : Email)
    (cl : Option ClassifyResponse) (res : Result) (r : DBEmail)
    (h : s.getEmailByGmailID e.id = some r) :
    processEmail u s e cl res = (s, false, false) := by
  unfold processEmail
  rw [h]

/-- The number of stored email rows keyed by a provider id. -/
def countByGmailId (s : Store) (gid : Str) : ℕ :=
  (s.emails.filter (fun r => r.gmailId == gid)).length

/-- C6. Ingest is idempotent. A message whose provider id already has a
stored row is skipped without any write; running `processEmail` a second
time on the same message leaves the store exactly as after the first run
(the second run performs no writes: no new email row, no email-count
increment, no last-activity change); and when the provider id was absent,
both after one and after two runs exactly one email row is keyed by it. -/
theorem ingest_idempotent (u : Str) (s : Store) (e : Email)
    (cl : Option ClassifyResponse) (res : Result) :
    (∀ r, s.getEmailByGmailID e.id = some r →
      processEmail u s e cl res = (s, false, false)) ∧
    (processEmail u (processEmail u s e cl res).1 e cl res).1
      = (processEmail u s e cl res).1 ∧
    (s.getEmailByGmailID e.id = none →
      countByGmailId (processEmail u s e cl res).1 e.id = 1 ∧
      countByGmailId
        (processEmail u (processEmail u s e cl res).1 e cl res).1 e.id = 1) := by
  have hsecond : (processEmail u (processEmail u s e cl res).1 e cl res).1
      = (processEmail u s e cl res).1 := by
    rcases hl : s.getEmailByGmailID e.id with _ | r
    · rw [processEmail_skip u _ e cl res _ (processEmail_lookup_self u s e cl res hl)]
    · rw [processEmail_skip u s e cl res r hl]
      exact congrArg (fun x => x.1) (processEmail_skip u s e cl res r hl)
  refine ⟨fun r hr => processEmail_skip u s e cl res r hr, hsecond, fun hl => ?_⟩
  have hcount : countByGmailId (processEmail u s e cl res).1 e.id = 1 := by
    unfold countByGmailId
    rw [processEmail_emails u s e cl res hl, List.filter_append]
    have h1 : s.emails.filter (fun r => r.gmailId == e.id) = [] := by
      rw [List.filter_eq_nil_iff]
      intro a ha
      have := List.find?_eq_none.mp hl a ha
      simpa using this
    rw [h1]
    simp [mkEmailRow]
  exact ⟨hcount, by rw [hsecond]; exact hcount⟩

/-- The empty store. -/
def emptyStore : Store := { convs := [], emails := [], nextId := 0 }

/-- Witness for C6: ingesting a concrete message into the empty store
twice leaves a single row keyed by its provider id. -/
theorem ingest_idempotent_witness :
    countByGmailId
      (processEmail (strOf ("me@example.com")) emptyStore sampleInbound
        none sampleUncertainResult).1 sampleInbound.id = 1 ∧
    countByGmailId
      (processEmail (strOf ("me@example.com"))
        (processEmail (strOf ("me@example.com")) emptyStore sampleInbound
          none sampleUncertainResult).1 sampleInbound
        none sampleUncertainResult).1 sampleInbound.id = 1 :=
  (ingest_idempotent (strOf ("me@example.com")) emptyStore sampleInbound
    none sampleUncertainResult).2.2 rfl

/-- Some conversation row carries the given id. -/
def Store.hasConvId (s : Store) (id : ℕ) : Prop :=
  ∃ c ∈ s.convs, c.id = id

/-- Store well-formedness: every email row references an existing
conversation (the database enforces the foreign key) and every
conversation id is below the fresh counter (uuid freshness). -/
def Store.WF (s : Store) : Prop :=
  (∀ r ∈ s.emails, s.hasConvId r.conversationId) ∧
  (∀ c ∈ s.convs, c.id < s.nextId)

theorem hasConvId_iff_findConv (s : Store) (id : ℕ) :
    s.hasConvId id ↔ (s.findConv id).isSome = true := by
  unfold Store.hasConvId Store.findConv
  simp [List.find?_isSome]

theorem findConv_some_id (s : Store) (id : ℕ) (c : ConvRow)
    (h : s.findConv id = some c) : c.id = id ∧ c ∈ s.convs := by
  exact ⟨by simpa using List.find?_some h, List.mem_of_find?_eq_some h⟩

theorem hasConvId_map (s : Store) (f : ConvRow → ConvRow)
    (hf : ∀ x, (f x).id = x.id) (id : ℕ) :
    Store.hasConvId { s with convs := s.convs.map f } id ↔ s.hasConvId id := by
  unfold Store.hasConvId
  constructor
  · rintro ⟨c, hc, hid⟩
    obtain ⟨x, hx, hfx⟩ := List.mem_map.mp hc
    exact ⟨x, hx, by rw [← hf x, hfx, hid]⟩
  · rintro ⟨x, hx, hid⟩
    exact ⟨f x, List.mem_map.mpr ⟨x, hx, rfl⟩, by rw [hf x, hid]⟩

theorem incrementEmailCount_id_preserving (id₀ : ℕ) :
    ∀ x : ConvRow, (if x.id == id₀ then { x with emailCount := x.emailCount + 1 }
      else x).id = x.id := by
  intro x
  by_cases h : x.id == id₀
  · rw [if_pos h]
  · rw [if_neg h]

theorem updateConversation_id_preserving (c : ConvRow) :
    ∀ x : ConvRow, (if x.id == c.id then c else x).id = x.id := by
  intro x
  by_cases h : x.id = c.id
  · rw [if_pos (by simp [h]), h]
  · rw [if_neg (by simp [h])]

theorem hasConvId_increment (s : Store) (id₀ id : ℕ) :
    (s.incrementEmailCount id₀).hasConvId id ↔ s.hasConvId id :=
  hasConvId_map s _ (incrementEmailCount_id_preserving id₀) id

theorem hasConvId_update (s : Store) (c : ConvRow) (id : ℕ) :
    (s.updateConversation c).hasConvId id ↔ s.hasConvId id :=
  hasConvId_map s _ (updateConversation_id_preserving c) id

theorem hasConvId_createEmail (s : Store) (r : DBEmail) (id : ℕ) :
    (s.createEmail r).hasConvId id ↔ s.hasConvId id := Iff.rfl

theorem getConversationByThreadID_mem (s : Store) (tid : Str) (c : ConvRow)
    (h : s.getConversationByThreadID tid = some c) : c ∈ s.convs := by
  unfold Store.getConversationByThreadID at h
  rcases hf : s.emails.find? (fun e =>
      e.threadId == tid && (s.findConv e.conversationId).isSome) with _ | f
  · rw [hf] at h; cases h
  · rw [hf] at h
    exact (findConv_some_id s f.conversationId c h).2

theorem getConversationByRecruiterEmail_mem (s : Store) (em : Str) (c : ConvRow)
    (h : s.getConversationByRecruiterEmail em = some c) : c ∈ s.convs :=
  List.mem_of_find?_eq_some h

theorem findOrCreateConversation_hasConvId (u : Str) (s : Store) (e : Email)
    (cl : Option ClassifyResponse) :
    (findOrCreateConversation u s e cl).2.2.hasConvId
      (findOrCreateConversation u s e cl).1.id := by
  unfold findOrCreateConversation
  rcases h1 : s.getConversationByThreadID e.threadId with _ | conv
  · rcases h2 : s.getConversationByRecruiterEmail (grouperRecruiterEmail u e)
      with _ | conv
    · dsimp only [Store.createConversation]
      exact ⟨_, List.mem_append_right _ (List.mem_singleton.mpr rfl), rfl⟩
    · exact ⟨conv, getConversationByRecruiterEmail_mem s _ conv h2, rfl⟩
  · exact ⟨conv, getConversationByThreadID_mem s _ conv h1, rfl⟩

theorem findOrCreateConversation_hasConvId_mono (u : Str) (s : Store) (e : Email)
    (cl : Option ClassifyResponse) (id : ℕ) (h : s.hasConvId id) :
    (findOrCreateConversation u s e cl).2.2.hasConvId id := by
  unfold findOrCreateConversation
  rcases h1 : s.getConversationByThreadID e.threadId with _ | conv
  · rcases h2 : s.getConversationByRecruiterEmail (grouperRecruiterEmail u e)
      with _ | conv
    · obtain ⟨c, hc, hid⟩ := h
      exact ⟨c, List.mem_append_left _ hc, hid⟩
    · exact h
  · exact h

theorem processEmail_hasConvId (u : Str) (s : Store) (e : Email)
    (cl : Option ClassifyResponse) (res : Result)
    (h : s.getEmailByGmailID e.id = none) (id : ℕ) :
    (processEmail u s e cl res).1.hasConvId id ↔
      (findOrCreateConversation u s e cl).2.2.hasConvId id := by
  unfold processEmail
  rw [h]
  dsimp only
  by_cases hd : (findOrCreateConversation u s e cl).1.lastActivityAt < e.date
  · rw [if_pos hd]
    rw [hasConvId_update, hasConvId_increment, hasConvId_createEmail]
  · rw [if_neg hd]
    rw [hasConvId_increment, hasConvId_createEmail]

theorem find?_append_of_some {α} (p : α → Bool) (l₁ l₂ : List α) (x : α)
    (h : l₁.find? p = some x) : (l₁ ++ l₂).find? p = some x := by
  induction l₁ with
  | nil => cases h
  | cons a t ih =>
    cases hp : p a with
    | true =>
      rw [List.find?_cons_of_pos _ hp] at h
      rw [List.cons_append, List.find?_cons_of_pos _ hp]
      exact h
    | false =>
      rw [List.find?_cons_of_neg _ (by simp [hp])] at h
      rw [List.cons_append, List.find?_cons_of_neg _ (by simp [hp])]
      exact ih h

theorem find?_congr_mem {α} (p q : α → Bool) (l : List α)
    (h : ∀ x ∈ l, p x = q x) : l.find? p = l.find? q := by
  induction l with
  | nil => rfl
  | cons a t ih =>
    have ha := h a (List.mem_cons_self a t)
    cases hq : q a with
    | true =>
      rw [List.find?_cons_of_pos _ (by rw [ha, hq]),
        List.find?_cons_of_pos _ hq]
    | false =>
      rw [List.find?_cons_of_neg _ (by simp [ha, hq]),
        List.find?_cons_of_neg _ (by simp [hq])]
      exact ih (fun x hx => h x (List.mem_cons_of_mem a hx))

/-- The first stored email of a thread, ignoring the join (proof
infrastructure: under well-formedness the join filters nothing). -/
def pureThreadFind (s : Store) (tid : Str) : Option DBEmail :=
  s.emails.find? (fun r => r.threadId == tid)

theorem getConversationByThreadID_wf (s : Store) (tid : Str) (hwf : Store.WF s) :
    s.getConversationByThreadID tid =
      match pureThreadFind s tid with
      | some f => s.findConv f.conversationId
      | none => none := by
  unfold Store.getConversationByThreadID pureThreadFind
  rw [find?_congr_mem _ (fun r => r.threadId == tid) _ ?_]
  intro r hr
  rw [(hasConvId_iff_findConv s r.conversationId).mp (hwf.1 r hr), Bool.and_true]

theorem WF_increment (s : Store) (id : ℕ) (hwf : Store.WF s) :
    Store.WF (s.incrementEmailCount id) := by
  constructor
  · intro r hr
    exact (hasConvId_increment s id r.conversationId).mpr (hwf.1 r hr)
  · intro c hc
    dsimp only [Store.incrementEmailCount] at hc ⊢
    obtain ⟨x, hx, hfx⟩ := List.mem_map.mp hc
    have hid : c.id = x.id := by
      rw [← hfx]; exact incrementEmailCount_id_preserving id x
    rw [hid]
    exact hwf.2 x hx

theorem WF_update (s : Store) (c : ConvRow) (hwf : Store.WF s) :
    Store.WF (s.updateConversation c) := by
  constructor
  · intro r hr
    exact (hasConvId_update s c r.conversationId).mpr (hwf.1 r hr)
  · intro x hx
    dsimp only [Store.updateConversation] at hx ⊢
    obtain ⟨y, hy, hfy⟩ := List.mem_map.mp hx
    have hid : x.id = y.id := by
      rw [← hfy]; exact updateConversation_id_preserving c y
    rw [hid]
    exact hwf.2 y hy

theorem WF_createEmail (s : Store) (r : DBEmail) (hwf : Store.WF s)
    (hr : s.hasConvId r.conversationId) : Store.WF (s.createEmail r) := by
  constructor
  · intro x hx
    dsimp only [Store.createEmail] at hx
    rcases List.mem_append.mp hx with hx | hx
    · exact hwf.1 x hx
    · rw [List.mem_singleton.mp hx]
      exact hr
  · exact hwf.2

theorem findOrCreateConversation_WF (u : Str) (s : Store) (e : Email)
    (cl : Option ClassifyResponse) (hwf : Store.WF s) :
    Store.WF (findOrCreateConversation u s e cl).2.2 := by
  unfold findOrCreateConversation
  rcases h1 : s.getConversationByThreadID e.threadId with _ | conv
  · rcases h2 : s.getConversationByRecruiterEmail (grouperRecruiterEmail u e)
      with _ | conv
    · dsimp only [Store.createConversation]
      constructor
      · intro r hr
        obtain ⟨c, hc, hid⟩ := hwf.1 r hr
        exact ⟨c, List.mem_append_left _ hc, hid⟩
      · intro c hc
        rcases List.mem_append.mp hc with hc | hc
        · exact Nat.lt_trans (hwf.2 c hc) (Nat.lt_succ_self _)
        · rw [List.mem_singleton.mp hc]
          exact Nat.lt_succ_self _
    · exact hwf
  · exact hwf

theorem processEmail_WF (u : Str) (s : Store) (e : Email)
    (cl : Option ClassifyResponse) (res : Result)
    (h : s.getEmailByGmailID e.id = none) (hwf : Store.WF s) :
    Store.WF (processEmail u s e cl res).1 := by
  have hwf1 := findOrCreateConversation_WF u s e cl hwf
  have hrow := findOrCreateConversation_hasConvId u s e cl
  have hwf2 := WF_createEmail _
    (mkEmailRow u e res (findOrCreateConversation u s e cl).1.id) hwf1 hrow
  unfold processEmail
  rw [h]
  dsimp only
  by_cases hd : (findOrCreateConversation u s e cl).1.lastActivityAt < e.date
  · rw [if_pos hd]
    exact WF_update _ _ (WF_increment _ _ hwf2)
  · rw [if_neg hd]
    exact WF_increment _ _ hwf2

theorem findOrCreateConversation_threadAttach (u : Str) (s : Store) (e : Email)
    (cl : Option ClassifyResponse) (c : ConvRow)
    (h : s.getConversationByThreadID e.threadId = some c) :
    findOrCreateConversation u s e cl = (c, false, s) := by
  unfold findOrCreateConversation
  rw [h]

theorem processEmail_hasConvId_mono (u : Str) (s : Store) (e : Email)
    (cl : Option ClassifyResponse) (res : Result)
    (h : s.getEmailByGmailID e.id = none) (id : ℕ) (hid : s.hasConvId id) :
    (processEmail u s e cl res).1.hasConvId id :=
  (processEmail_hasConvId u s e cl res h id).mpr
    (findOrCreateConversation_hasConvId_mono u s e cl id hid)

theorem processEmail_conv_present (u : Str) (s : Store) (e : Email)
    (cl : Option ClassifyResponse) (res : Result)
    (h : s.getEmailByGmailID e.id = none) :
    (processEmail u s e cl res).1.hasConvId
      (findOrCreateConversation u s e cl).1.id :=
  (processEmail_hasConvId u s e cl res h _).mpr
    (findOrCreateConversation_hasConvId u s e cl)

theorem processEmail_thread_conv (u : Str) (s : Store) (e : Email)
    (cl : Option ClassifyResponse) (res : Result) (hwf : Store.WF s)
    (h : s.getEmailByGmailID e.id = none) :
    ∃ c, (processEmail u s e cl res).1.getConversationByThreadID e.threadId
        = some c ∧
      c.id = (findOrCreateConversation u s e cl).1.id := by
  have hwf' := processEmail_WF u s e cl res h hwf
  rw [getConversationByThreadID_wf _ _ hwf']
  have hemails := processEmail_emails u s e cl res h
  unfold pureThreadFind
  rw [hemails]
  rcases hp : s.emails.find? (fun r => r.threadId == e.threadId) with _ | f
  · rw [find?_append_of_none _ _ _ hp,
      List.find?_cons_of_pos _ (by simp [mkEmailRow])]
    have hpresent := processEmail_conv_present u s e cl res h
    obtain ⟨c, hc⟩ := Option.isSome_iff_exists.mp
      ((hasConvId_iff_findConv _ _).mp hpresent)
    refine ⟨c, ?_, (findConv_some_id _ _ _ hc).1⟩
    dsimp only [mkEmailRow]
    rw [hc]
  · rw [find?_append_of_some _ _ _ _ hp]
    have hf := List.mem_of_find?_eq_some hp
    have hfid := processEmail_hasConvId_mono u s e cl res h f.conversationId
      (hwf.1 f hf)
    obtain ⟨c, hc⟩ := Option.isSome_iff_exists.mp
      ((hasConvId_iff_findConv _ _).mp hfid)
    refine ⟨c, by dsimp only; rw [hc], ?_⟩
    have hattach : s.getConversationByThreadID e.threadId
        = s.findConv f.conversationId := by
      rw [getConversationByThreadID_wf s _ hwf]
      unfold pureThreadFind
      rw [hp]
    obtain ⟨c0, hc0⟩ := Option.isSome_iff_exists.mp
      ((hasConvId_iff_findConv s f.conversationId).mp (hwf.1 f hf))
    have hrun : findOrCreateConversation u s e cl = (c0, false, s) :=
      findOrCreateConversation_threadAttach u s e cl c0 (by rw [hattach, hc0])
    rw [hrun]
    rw [(findConv_some_id _ _ _ hc).1, (findConv_some_id _ _ _ hc0).1]

theorem processEmail_lookup_other (u : Str) (s : Store) (e : Email)
    (cl : Option ClassifyResponse) (res : Result) (gid : Str)
    (h : s.getEmailByGmailID e.id = none)
    (hg : s.getEmailByGmailID gid = none) (hne : e.id ≠ gid) :
    (processEmail u s e cl res).1.getEmailByGmailID gid = none := by
  unfold Store.getEmailByGmailID at hg ⊢
  rw [processEmail_emails u s e cl res h, find?_append_of_none _ _ _ hg,
    List.find?_cons_of_neg _ (by simp [mkEmailRow, hne]), List.find?_nil]

theorem sameThread_sameConversation (u : Str) (s : Store) (e₁ e₂ : Email)
    (cl₁ cl₂ : Option ClassifyResponse) (r₁ r₂ : Result)
    (hwf : Store.WF s) (ht : e₁.threadId = e₂.threadId)
    (hne : e₁.id ≠ e₂.id)
    (h₁ : s.getEmailByGmailID e₁.id = none)
    (h₂ : s.getEmailByGmailID e₂.id = none) :
    ∃ row₁ row₂,
      (processEmail u (processEmail u s e₁ cl₁ r₁).1 e₂ cl₂ r₂).1.getEmailByGmailID
        e₁.id = some row₁ ∧
      (processEmail u (processEmail u s e₁ cl₁ r₁).1 e₂ cl₂ r₂).1.getEmailByGmailID
        e₂.id = some row₂ ∧
      row₁.conversationId = row₂.conversationId := by
  have hs₁none : (processEmail u s e₁ cl₁ r₁).1.getEmailByGmailID e₂.id = none :=
    processEmail_lookup_other u s e₁ cl₁ r₁ e₂.id h₁ h₂ hne
  obtain ⟨c, hc, hcid⟩ := processEmail_thread_conv u s e₁ cl₁ r₁ hwf h₁
  rw [ht] at hc
  have hrun₂ : findOrCreateConversation u (processEmail u s e₁ cl₁ r₁).1 e₂ cl₂
      = (c, false, (processEmail u s e₁ cl₁ r₁).1) :=
    findOrCreateConversation_threadAttach u _ e₂ cl₂ c hc
  refine ⟨mkEmailRow u e₁ r₁ (findOrCreateConversation u s e₁ cl₁).1.id,
    mkEmailRow u e₂ r₂ (findOrCreateConversation u (processEmail u s e₁ cl₁ r₁).1
      e₂ cl₂).1.id, ?_, ?_, ?_⟩
  · have hself := processEmail_lookup_self u s e₁ cl₁ r₁ h₁
    have hemails₂ := processEmail_emails u (processEmail u s e₁ cl₁ r₁).1 e₂ cl₂ r₂
      hs₁none
    unfold Store.getEmailByGmailID at hself ⊢
    rw [hemails₂, find?_append_of_some _ _ _ _ hself]
  · exact processEmail_lookup_self u _ e₂ cl₂ r₂ hs₁none
  · dsimp only [mkEmailRow]
    rw [hrun₂]
    exact hcid.symm

/-- Counterexample to C5 as stated: an outbound message with an empty
recipient list is not dropped. Processing it against the empty store
stores its email row, creates a conversation, and sets that
conversation's recruiter email to the message's own from address (the
user's address), rather than discarding the message. -/
theorem grouper_no_drop_counterexample :
    ((processEmail (strOf ("me@example.com")) emptyStore
        sampleOutboundNoRecipients none sampleUncertainResult).1).emails.length
      = 1 ∧
    (processEmail (strOf ("me@example.com")) emptyStore
        sampleOutboundNoRecipients none sampleUncertainResult).2.1 = true ∧
    ((processEmail (strOf ("me@example.com")) emptyStore
        sampleOutboundNoRecipients none sampleUncertainResult).1).convs.length
      = 1 ∧
    ∃ c ∈ ((processEmail (strOf ("me@example.com")) emptyStore
        sampleOutboundNoRecipients none sampleUncertainResult).1).convs,
      c.recruiterEmail = some (strOf ("Me@example.com")) := by
  refine ⟨rfl, rfl, rfl, ?_⟩
  decide

/-- C5 as amended. The grouper applies its rules in order: a message
whose thread already has a stored email attaches to that email's
conversation; otherwise the recruiter email is the from address for
inbound messages and the first recipient for outbound ones — an outbound
message with no recipients falls back to its own from address (the
user's) instead of being dropped — and the message attaches to a
conversation with that recruiter email (case-insensitively); otherwise a
new conversation is created with status active. Two messages with equal
nonempty thread id, ingested into a well-formed store that has neither,
end up with email rows in the same conversation. -/
theorem grouper_rules_spec (u : Str) (s : Store) (e e₂ : Email)
    (cl cl₂ : Option ClassifyResponse) (res res₂ : Result) :
    (e.isFromMe u = false → grouperRecruiterEmail u e = e.fromAddr.email) ∧
    (∀ a rest, e.isFromMe u = true → e.toAddrs = a :: rest →
      grouperRecruiterEmail u e = a.email) ∧
    (e.isFromMe u = true → e.toAddrs = [] →
      grouperRecruiterEmail u e = e.fromAddr.email) ∧
    (∀ c, s.getConversationByThreadID e.threadId = some c →
      findOrCreateConversation u s e cl = (c, false, s)) ∧
    (s.getConversationByThreadID e.threadId = none →
      ∀ c, s.getConversationByRecruiterEmail (grouperRecruiterEmail u e)
          = some c →
        findOrCreateConversation u s e cl = (c, false, s)) ∧
    (s.getConversationByThreadID e.threadId = none →
      s.getConversationByRecruiterEmail (grouperRecruiterEmail u e) = none →
      (findOrCreateConversation u s e cl).2.1 = true ∧
      (findOrCreateConversation u s e cl).1.status
        = ConversationStatus.active) ∧
    (Store.WF s → e.threadId = e₂.threadId → e.threadId ≠ [] →
      e.id ≠ e₂.id → s.getEmailByGmailID e.id = none →
      s.getEmailByGmailID e₂.id = none →
      ∃ row₁ row₂,
        (processEmail u (processEmail u s e cl res).1 e₂ cl₂
          res₂).1.getEmailByGmailID e.id = some row₁ ∧
        (processEmail u (processEmail u s e cl res).1 e₂ cl₂
          res₂).1.getEmailByGmailID e₂.id = some row₂ ∧
        row₁.conversationId = row₂.conversationId) := by
  refine ⟨?_, ?_, ?_, ?_, ?_, ?_, ?_⟩
  · intro hin
    unfold grouperRecruiterEmail
    rw [hin]
    rfl
  · intro a rest hout hto
    unfold grouperRecruiterEmail
    rw [hout, hto]
    rfl
  · intro hout hto
    unfold grouperRecruiterEmail
    rw [hout, hto]
    rfl
  · intro c hc
    exact findOrCreateConversation_threadAttach u s e cl c hc
  · intro h1 c h2
    unfold findOrCreateConversation
    rw [h1]
    dsimp only
    rw [h2]
  · intro h1 h2
    unfold findOrCreateConversation
    rw [h1]
    dsimp only
    rw [h2]
    exact ⟨rfl, rfl⟩
  · intro hwf ht _hT hne h₁ h₂
    exact sameThread_sameConversation u s e e₂ cl cl₂ res res₂ hwf ht hne h₁ h₂

/-- First of two messages sharing a thread. -/
def sampleThreadMsgA : Email :=
  { id := strOf ("gA"), threadId := strOf ("t9"),
    subject := strOf ("Role"), fromAddr := { name := [], email := strOf ("r@acme.com") },
    toAddrs := [], date := 1, snippet := [], body := [] }

/-- Second of two messages sharing a thread. -/
def sampleThreadMsgB : Email :=
  { id := strOf ("gB"), threadId := strOf ("t9"),
    subject := strOf ("Re: Role"), fromAddr := { name := [], email := strOf ("me@example.com") },
    toAddrs := [{ name := [], email := strOf ("r@acme.com") }], date := 2,
    snippet := [], body := [] }

/-- Witness for the amended C5: two concrete messages with the same
nonempty thread id, ingested into the empty store, have rows in the same
conversation. -/
theorem grouper_rules_spec_witness :
    ∃ row₁ row₂,
      (processEmail (strOf ("me@example.com"))
        (processEmail (strOf ("me@example.com")) emptyStore sampleThreadMsgA
          none sampleUncertainResult).1 sampleThreadMsgB none
        sampleUncertainResult).1.getEmailByGmailID sampleThreadMsgA.id
          = some row₁ ∧
      (processEmail (strOf ("me@example.com"))
        (processEmail (strOf ("me@example.com")) emptyStore sampleThreadMsgA
          none sampleUncertainResult).1 sampleThreadMsgB none
        sampleUncertainResult).1.getEmailByGmailID sampleThreadMsgB.id
          = some row₂ ∧
      row₁.conversationId = row₂.conversationId :=
  (grouper_rules_spec (strOf ("me@example.com")) emptyStore sampleThreadMsgA
      sampleThreadMsgB none none sampleUncertainResult
      sampleUncertainResult).2.2.2.2.2.2
    ⟨fun r hr => absurd hr (List.not_mem_nil r),
     fun c hc => absurd hc (List.not_mem_nil c)⟩
    rfl (by decide) (by decide) rfl rfl

/-- `internal/database` learned-filter sources. -/
inductive FilterSource where
  | user
  | aiSuggested
  | aiConfirmed
deriving DecidableEq, Repr

/-- A `learned_filters` row: filter type (as its stored string), value,
source, false-positive count, and the auto-blacklist promotion mark. -/
structure LearnedFilterRow where
  filterType : Str
  value : Str
  source : FilterSource
  falsePositiveCount : ℕ
  autoBlacklisted : Bool
deriving DecidableEq, Repr

/-- The learned-filter table, rows in insertion order. -/
abbrev LearnState := List LearnedFilterRow

/-- The stored name of the domain-blacklist filter type. -/
def domainBlacklistType : Str := strOf ("domain_blacklist")

/-- Modelled from the spec: `MarkFalsePositive(domain)` increments
`false_positive_count` on the `(domain_blacklist, domain)` row, creating
it with `source=user` and count 1 when absent. Its SQL body is not among
the repository's files; the specification words the operation. -/
def markFalsePositive (ls : LearnState) (domain : Str) : LearnState :=
  if ls.any (fun r => r.filterType == domainBlacklistType && r.value == domain) then
    ls.map (fun r =>
      if r.filterType == domainBlacklistType && r.value == domain then
        { r with falsePositiveCount := r.falsePositiveCount + 1 }
      else r)
  else
    ls ++ [{ filterType := domainBlacklistType, value := domain,
             source := FilterSource.user, falsePositiveCount := 1,
             autoBlacklisted := false }]

/-- Modelled from the spec: `GetFalsePositiveCount(domain)` reads the
row's counter, zero when absent. Its SQL body is not among the
repository's files. -/
def getFalsePositiveCount (ls : LearnState) (domain : Str) : ℕ :=
  match ls.find? (fun r =>
      r.filterType == domainBlacklistType && r.value == domain) with
  | some r => r.falsePositiveCount
  | none => 0

/-- Modelled from the spec: `PromoteToAutoBlacklist(domain)` marks the
rule auto-blacklisted. Its SQL body is not among the repository's
files. -/
def promoteToAutoBlacklist (ls : LearnState) (domain : Str) : LearnState :=
  ls.map (fun r =>
    if r.filterType == domainBlacklistType && r.value == domain then
      { r with autoBlacklisted := true }
    else r)

/-- Modelled from the spec: `GetLearnedBlacklist()` returns all active
blacklist domains — `user`, `ai_confirmed` and auto-promoted rows. Its
SQL body is not among the repository's files. -/
def getLearnedBlacklist (ls : LearnState) : List Str :=
  (ls.filter (fun r => r.filterType == domainBlacklistType &&
      (r.source == FilterSource.user || r.source == FilterSource.aiConfirmed ||
        r.autoBlacklisted))).map (fun r => r.value)

/-- `internal/cli/markspam.go`: the domain extracted from the
conversation's recruiter email — the lower-cased part after `@` when the
address splits into exactly two parts, empty otherwise. -/
def markSpamDomain (conv : ConvRow) : Str :=
  match conv.recruiterEmail with
  | some re =>
    if re ≠ [] then
      let parts := splitOn re '@'
      if parts.length = 2 then toLowerStr parts[1]! else []
    else []
  | none => []

/-- `internal/cli/markspam.go` `MarkSpamResult`, restricted to the fields
the command computes. -/
structure MarkSpamResult where
  falsePositiveCount : ℕ
  autoBlacklisted : Bool
  archived : Bool
deriving DecidableEq, Repr

/-- `internal/cli/markspam.go` `runMarkSpam`, applied to the conversation
it resolved: when a domain can be extracted, record the false positive,
read the updated count, and promote the domain to the auto-blacklist at
the threshold 3; archive the conversation in every case
(`ArchiveConversation` modelled from the spec as flagging, not
deleting). -/
def runMarkSpam (ls : LearnState) (conv : ConvRow) :
    LearnState × ConvRow × MarkSpamResult :=
  let domain := markSpamDomain conv
  let step :=
    if domain ≠ [] then
      let ls₁ := markFalsePositive ls domain
      let count := getFalsePositiveCount ls₁ domain
      if count ≥ 3 then (promoteToAutoBlacklist ls₁ domain, count, true)
      else (ls₁, count, false)
    else (ls, 0, false)
  (step.1, { conv with archived := true }, ⟨step.2.1, step.2.2, true⟩)

/-- The fresh user row `markFalsePositive` creates. -/
def freshBlacklistRow (d : Str) : LearnedFilterRow :=
  { filterType := domainBlacklistType, value := d,
    source := FilterSource.user, falsePositiveCount := 1,
    autoBlacklisted := false }

theorem map_nomatch {α} (l : List α) (p : α → Bool) (g : α → α)
    (h : ∀ r ∈ l, p r = false) :
    l.map (fun r => if p r then g r else r) = l := by
  have h2 : l.map (fun r => if p r then g r else r) = l.map (fun r => r) :=
    List.map_congr_left (fun r hr => by simp [h r hr])
  rw [h2]
  simp

theorem markFalsePositive_fresh (ls : LearnState) (d : Str)
    (hnone : ∀ r ∈ ls,
      (r.filterType == domainBlacklistType && r.value == d) = false) :
    markFalsePositive ls d = ls ++ [freshBlacklistRow d] := by
  unfold markFalsePositive
  rw [if_neg]
  · rfl
  · rw [List.any_eq_false.mpr (fun r hr => by rw [hnone r hr]; exact Bool.false_ne_true)]
    exact Bool.false_ne_true

theorem markFalsePositive_append (ls : LearnState) (d : Str)
    (row : LearnedFilterRow)
    (hnone : ∀ r ∈ ls,
      (r.filterType == domainBlacklistType && r.value == d) = false)
    (hrow : (row.filterType == domainBlacklistType && row.value == d) = true) :
    markFalsePositive (ls ++ [row]) d =
      ls ++ [{ row with falsePositiveCount := row.falsePositiveCount + 1 }] := by
  unfold markFalsePositive
  rw [if_pos]
  · rw [List.map_append, map_nomatch ls _ _ hnone]
    simp only [List.map_cons, List.map_nil, hrow, if_pos]
  · exact List.any_eq_true.mpr ⟨row, List.mem_append_right _ (List.mem_singleton.mpr rfl), hrow⟩

theorem getFalsePositiveCount_append (ls : LearnState) (d : Str)
    (row : LearnedFilterRow)
    (hnone : ∀ r ∈ ls,
      (r.filterType == domainBlacklistType && r.value == d) = false)
    (hrow : (row.filterType == domainBlacklistType && row.value == d) = true) :
    getFalsePositiveCount (ls ++ [row]) d = row.falsePositiveCount := by
  unfold getFalsePositiveCount
  rw [find?_append_of_none _ _ _ (List.find?_eq_none.mpr
      (fun r hr => by rw [hnone r hr]; exact Bool.false_ne_true)),
    show List.find? (fun r =>
        r.filterType == domainBlacklistType && r.value == d) [row] = some row from
      List.find?_cons_of_pos _ hrow]

theorem promoteToAutoBlacklist_append (ls : LearnState) (d : Str)
    (row : LearnedFilterRow)
    (hnone : ∀ r ∈ ls,
      (r.filterType == domainBlacklistType && r.value == d) = false)
    (hrow : (row.filterType == domainBlacklistType && row.value == d) = true) :
    promoteToAutoBlacklist (ls ++ [row]) d =
      ls ++ [{ row with autoBlacklisted := true }] := by
  unfold promoteToAutoBlacklist
  rw [List.map_append, map_nomatch ls _ _ hnone]
  simp only [List.map_cons, List.map_nil, hrow, if_pos]

theorem mem_getLearnedBlacklist (ls : LearnState) (row : LearnedFilterRow)
    (hmem : row ∈ ls) (htype : row.filterType = domainBlacklistType)
    (hsrc : row.source = FilterSource.user) :
    row.value ∈ getLearnedBlacklist ls := by
  unfold getLearnedBlacklist
  exact List.mem_map.mpr ⟨row, List.mem_filter.mpr ⟨hmem, by simp [htype, hsrc]⟩, rfl⟩

theorem runMarkSpam_eq (ls : LearnState) (conv : ConvRow) (d : Str)
    (hdom : markSpamDomain conv = d) (hd : d ≠ []) :
    runMarkSpam ls conv =
      (if getFalsePositiveCount (markFalsePositive ls d) d ≥ 3 then
        (promoteToAutoBlacklist (markFalsePositive ls d) d,
          { conv with archived := true },
          ⟨getFalsePositiveCount (markFalsePositive ls d) d, true, true⟩)
      else
        (markFalsePositive ls d, { conv with archived := true },
          ⟨getFalsePositiveCount (markFalsePositive ls d) d, false, true⟩)) := by
  unfold runMarkSpam
  rw [hdom]
  dsimp only
  rw [if_pos hd]
  by_cases h3 : getFalsePositiveCount (markFalsePositive ls d) d ≥ 3
  · rw [if_pos h3, if_pos h3]
  · rw [if_neg h3, if_neg h3]

theorem checkDomainWhitelist_empty (f : EmailFilter) (e : Email)
    (h1 : f.config.domainWhitelist = []) (h2 : f.learnedDomainWhitelist = []) :
    f.checkDomainWhitelist e = none := by
  unfold EmailFilter.checkDomainWhitelist EmailFilter.getAllDomainWhitelist
  rw [h1, h2]
  rcases f.getRelevantAddress e with ⟨dom, rel⟩
  dsimp only
  by_cases hd : dom = []
  · rw [if_pos hd]
  · rw [if_neg hd]
    rfl

theorem blacklisted_inbound_excluded (uem : Str) (bl : List Str) (e : Email)
    (d : Str) (hd : d ≠ []) (hld : toLowerStr d = d) (hdom : e.domain = d)
    (hmem : d ∈ bl) (hin : eqFold e.fromAddr.email uem = false) :
    ({ EmailFilter.new sampleConfigEmpty with userEmail := uem
      }.addLearnedDomainBlacklist bl).apply e
      = ⟨false, Layer.blacklist, 1⟩ := by
  have hrel : ({ EmailFilter.new sampleConfigEmpty with userEmail := uem
      }.addLearnedDomainBlacklist bl).getRelevantAddress e
      = (e.domain, toLowerStr e.fromAddr.email) := by
    unfold EmailFilter.getRelevantAddress
    rw [if_neg]
    rintro ⟨-, hc⟩
    have hc2 : eqFold e.fromAddr.email uem = true := hc
    rw [hin] at hc2
    cases hc2
  have hwh : ({ EmailFilter.new sampleConfigEmpty with userEmail := uem
      }.addLearnedDomainBlacklist bl).checkDomainWhitelist e = none :=
    checkDomainWhitelist_empty _ e rfl rfl
  have hb : MatchesDomainBlacklist ({ EmailFilter.new sampleConfigEmpty with
      userEmail := uem }.addLearnedDomainBlacklist bl) e := by
    unfold MatchesDomainBlacklist
    rw [hrel]
    refine ⟨by rw [hdom]; exact hd, d, ?_, ?_⟩
    · show d ∈ [] ++ ([] ++ bl)
      simpa using hmem
    · unfold matchesDomainPattern
      rw [hdom, hld, if_pos (by simp)]
  obtain ⟨r, hr⟩ := Option.isSome_iff_exists.mp
    ((checkDomainBlacklist_isSome _ e).mpr hb)
  have hshape := checkDomainBlacklist_shape _ e r hr
  unfold EmailFilter.apply
  rw [hwh, hr, hshape]

/-- C7. Starting from a learned-filter table with no domain-blacklist row
for the recruiter domain `d`, three mark-spam commands naming
conversations with that recruiter domain create the row with source user
and count 1 on the first call and increment it on each subsequent call;
the third call reaches the threshold 3 and promotes the domain to the
auto-blacklist; every call archives its conversation; the domain then
appears in `get_learned_blacklist()`; and a filter loaded with that
learned blacklist excludes inbound mail from the domain at the
domain-blacklist layer with confidence 1. -/
theorem mark_spam_auto_promotion (ls : LearnState) (c₁ c₂ c₃ : ConvRow)
    (d : Str) (hd : d ≠ []) (hld : toLowerStr d = d)
    (h₁ : markSpamDomain c₁ = d) (h₂ : markSpamDomain c₂ = d)
    (h₃ : markSpamDomain c₃ = d)
    (hnone : ∀ r ∈ ls,
      (r.filterType == domainBlacklistType && r.value == d) = false) :
    (runMarkSpam ls c₁).1 = ls ++ [freshBlacklistRow d] ∧
    (runMarkSpam ls c₁).2.2 = ⟨1, false, true⟩ ∧
    (runMarkSpam (runMarkSpam ls c₁).1 c₂).1
      = ls ++ [{ freshBlacklistRow d with falsePositiveCount := 2 }] ∧
    (runMarkSpam (runMarkSpam ls c₁).1 c₂).2.2 = ⟨2, false, true⟩ ∧
    (runMarkSpam (runMarkSpam (runMarkSpam ls c₁).1 c₂).1 c₃).1
      = ls ++ [{ { freshBlacklistRow d with falsePositiveCount := 3 } with
          autoBlacklisted := true }] ∧
    (runMarkSpam (runMarkSpam (runMarkSpam ls c₁).1 c₂).1 c₃).2.2
      = ⟨3, true, true⟩ ∧
    (∀ ls' c, (runMarkSpam ls' c).2.1.archived = true) ∧
    d ∈ getLearnedBlacklist
      (runMarkSpam (runMarkSpam (runMarkSpam ls c₁).1 c₂).1 c₃).1 ∧
    (∀ (uem : Str) (e : Email), e.domain = d →
      eqFold e.fromAddr.email uem = false →
      ({ EmailFilter.new sampleConfigEmpty with userEmail := uem
        }.addLearnedDomainBlacklist
          (getLearnedBlacklist
            (runMarkSpam (runMarkSpam (runMarkSpam ls c₁).1 c₂).1 c₃).1)).apply e
        = ⟨false, Layer.blacklist, 1⟩) := by
  have hfresh : ((freshBlacklistRow d).filterType == domainBlacklistType
      && (freshBlacklistRow d).value == d) = true := by
    simp [freshBlacklistRow]
  have hm2 : (({ freshBlacklistRow d with falsePositiveCount :=
        (freshBlacklistRow d).falsePositiveCount + 1 } :
          LearnedFilterRow).filterType == domainBlacklistType
      && ({ freshBlacklistRow d with falsePositiveCount :=
        (freshBlacklistRow d).falsePositiveCount + 1 } :
          LearnedFilterRow).value == d) = true := by
    simp [freshBlacklistRow]
  have e₁ : runMarkSpam ls c₁
      = (ls ++ [freshBlacklistRow d], { c₁ with archived := true },
          ⟨1, false, true⟩) := by
    rw [runMarkSpam_eq ls c₁ d h₁ hd, markFalsePositive_fresh ls d hnone,
      getFalsePositiveCount_append ls d (freshBlacklistRow d) hnone hfresh,
      if_neg (by norm_num [freshBlacklistRow])]
    rfl
  have e₂ : runMarkSpam (ls ++ [freshBlacklistRow d]) c₂
      = (ls ++ [{ freshBlacklistRow d with falsePositiveCount := 2 }],
          { c₂ with archived := true }, ⟨2, false, true⟩) := by
    rw [runMarkSpam_eq _ c₂ d h₂ hd,
      markFalsePositive_append ls d (freshBlacklistRow d) hnone hfresh,
      getFalsePositiveCount_append ls d _ hnone hm2,
      if_neg (by norm_num [freshBlacklistRow])]
    rfl
  have hm3 : (({ freshBlacklistRow d with falsePositiveCount := 2 } :
        LearnedFilterRow).filterType == domainBlacklistType
      && ({ freshBlacklistRow d with falsePositiveCount := 2 } :
        LearnedFilterRow).value == d) = true := by
    simp [freshBlacklistRow]
  have hm4 : (({ freshBlacklistRow d with falsePositiveCount :=
        ({ freshBlacklistRow d with falsePositiveCount := 2 } :
          LearnedFilterRow).falsePositiveCount + 1 } :
          LearnedFilterRow).filterType == domainBlacklistType
      && ({ freshBlacklistRow d with falsePositiveCount :=
        ({ freshBlacklistRow d with falsePositiveCount := 2 } :
          LearnedFilterRow).falsePositiveCount + 1 } :
          LearnedFilterRow).value == d) = true := by
    simp [freshBlacklistRow]
  have e₃ : runMarkSpam
        (ls ++ [{ freshBlacklistRow d with falsePositiveCount := 2 }]) c₃
      = (ls ++ [{ { freshBlacklistRow d with falsePositiveCount := 3 } with
            autoBlacklisted := true }],
          { c₃ with archived := true }, ⟨3, true, true⟩) := by
    rw [runMarkSpam_eq _ c₃ d h₃ hd,
      markFalsePositive_append ls d ({ freshBlacklistRow d with
        falsePositiveCount := 2 }) hnone hm3,
      getFalsePositiveCount_append ls d _ hnone hm4,
      if_pos (by norm_num [freshBlacklistRow]),
      promoteToAutoBlacklist_append ls d _ hnone hm4]
  have hmemF : d ∈ getLearnedBlacklist
      (runMarkSpam (runMarkSpam (runMarkSpam ls c₁).1 c₂).1 c₃).1 := by
    rw [e₁]
    dsimp only
    rw [e₂]
    dsimp only
    rw [e₃]
    exact mem_getLearnedBlacklist _
      ({ { freshBlacklistRow d with falsePositiveCount := 3 } with
        autoBlacklisted := true })
      (List.mem_append_right _ (List.mem_singleton.mpr rfl)) rfl rfl
  refine ⟨?_, ?_, ?_, ?_, ?_, ?_, fun ls' c => rfl, hmemF, ?_⟩
  · rw [e₁]
  · rw [e₁]
  · rw [e₁]; dsimp only; rw [e₂]
  · rw [e₁]; dsimp only; rw [e₂]
  · rw [e₁]; dsimp only; rw [e₂]; dsimp only; rw [e₃]
  · rw [e₁]; dsimp only; rw [e₂]; dsimp only; rw [e₃]
  · intro uem e hdome hin
    exact blacklisted_inbound_excluded uem _ e d hd hld hdome hmemF hin

/-- A conversation whose recruiter domain is `walmart.com`. -/
def sampleSpamConv : ConvRow :=
  { id := 5, company := strOf ("Walmart"), position := none,
    recruiterName := none,
    recruiterEmail := some (strOf ("Spam@Walmart.com")),
    direction := Direction.inbound, status := ConversationStatus.active,
    lastActivityAt := 0, emailCount := 1, archived := false }

/-- Witness for C7: three mark-spam calls on a concrete conversation
reach count 3, auto-blacklist its domain, and put it in the learned
blacklist. -/
theorem mark_spam_auto_promotion_witness :
    (runMarkSpam (runMarkSpam (runMarkSpam [] sampleSpamConv).1
        sampleSpamConv).1 sampleSpamConv).2.2 = ⟨3, true, true⟩ ∧
    strOf ("walmart.com") ∈ getLearnedBlacklist
      (runMarkSpam (runMarkSpam (runMarkSpam [] sampleSpamConv).1
        sampleSpamConv).1 sampleSpamConv).1 :=
  ⟨(mark_spam_auto_promotion [] sampleSpamConv sampleSpamConv sampleSpamConv
      (strOf ("walmart.com")) (by decide) (by decide) (by decide) (by decide)
      (by decide) (fun r hr => absurd hr (List.not_mem_nil r))).2.2.2.2.2.1,
   (mark_spam_auto_promotion [] sampleSpamConv sampleSpamConv sampleSpamConv
      (strOf ("walmart.com")) (by decide) (by decide) (by decide) (by decide)
      (by decide) (fun r hr => absurd hr (List.not_mem_nil r))).2.2.2.2.2.2.2.1⟩

/-- The outcomes of the fallible steps of one `SyncWithOptions` run that
determine whether the sync-state cursor advances. -/
structure SyncFlow where
  getUserEmailOk : Bool
  getSyncStateOk : Bool
  fetchOk : Bool
  emailsFetched : ℕ
  processedWriteOk : List Bool
  updateSyncStateOk : Bool
deriving DecidableEq, Repr

/-- What one run reports: whether it returned early with an error before
any cursor write, whether `last_sync_at` was advanced, and how many
errors the sync result carries from the processing phase onwards. -/
structure SyncFlowOutcome where
  earlyError : Bool
  cursorAdvanced : Bool
  itemErrors : ℕ
deriving DecidableEq, Repr

/-- The cursor-relevant control flow of `SyncWithOptions` (tracker.go):
a failing user lookup, sync-state read or fetch returns early without
touching the cursor; with no fetched mail the cursor is written at once
(its error ignored); otherwise every included message is processed — a
failing `processEmail` only appends to the error list and the loop
continues — and the cursor is then written unconditionally, appending an
error if that write fails. -/
def syncCursorFlow (f : SyncFlow) : SyncFlowOutcome :=
  if ¬ f.getUserEmailOk then ⟨true, false, 0⟩
  else if ¬ f.getSyncStateOk then ⟨true, false, 0⟩
  else if ¬ f.fetchOk then ⟨true, false, 0⟩
  else if f.emailsFetched = 0 then ⟨false, f.updateSyncStateOk, 0⟩
  else
    let errs := (f.processedWriteOk.filter (fun b => !b)).length
    ⟨false, f.updateSyncStateOk, errs + (if f.updateSyncStateOk then 0 else 1)⟩

/-- Counterexample to C9 as stated: in a run where every phase succeeds
except one conversation/email write, the sync result carries the write
error, yet `last_sync_at` is still advanced. -/
theorem sync_cursor_counterexample :
    (syncCursorFlow ⟨true, true, true, 2, [true, false], true⟩).itemErrors = 1 ∧
    (syncCursorFlow ⟨true, true, true, 2, [true, false], true⟩).cursorAdvanced
      = true := by
  exact ⟨rfl, rfl⟩

/-- C9 as amended. The sync-state cursor advances exactly when the run
reaches its final phase — user lookup, sync-state read and the list and
fetch phase all succeeded — and the sync-state write itself succeeds;
failures of individual conversation and email writes are recorded as
errors in the result but do not prevent the cursor from advancing, and
any failure before the processing phase leaves the cursor untouched. -/
theorem sync_cursor_spec (f : SyncFlow) :
    (syncCursorFlow f).cursorAdvanced
      = (f.getUserEmailOk && f.getSyncStateOk && f.fetchOk &&
          f.updateSyncStateOk) ∧
    ((syncCursorFlow f).earlyError = true →
      (syncCursorFlow f).cursorAdvanced = false) := by
  unfold syncCursorFlow
  by_cases h1 : f.getUserEmailOk <;> by_cases h2 : f.getSyncStateOk <;>
    by_cases h3 : f.fetchOk <;>
    by_cases h4 : f.emailsFetched = 0 <;>
    simp [h1, h2, h3, h4]

/-- Witness for the amended C9 at a concrete run with one failing write. -/
theorem sync_cursor_spec_witness :
    (syncCursorFlow ⟨true, true, true, 2, [true, false], true⟩).cursorAdvanced
      = (true && true && true && true) ∧
    ((syncCursorFlow ⟨true, true, true, 2, [true, false], true⟩).earlyError
        = true →
      (syncCursorFlow ⟨true, true, true, 2, [true, false],
        true⟩).cursorAdvanced = false) :=
  sync_cursor_spec ⟨true, true, true, 2, [true, false], true⟩

/-- Truncation to a 32-bit word (machine `uint32` arithmetic). -/
def w32 (n : ℕ) : ℕ := n % 4294967296

/-- 32-bit right rotation. -/
def rotr32 (k x : ℕ) : ℕ := w32 ((x >>> k) ||| (x <<< (32 - k)))

/-- SHA-256 choice function. -/
def shaCh (e f g : ℕ) : ℕ := (e &&& f) ^^^ ((e ^^^ 4294967295) &&& g)

/-- SHA-256 majority function. -/
def shaMaj (a b c : ℕ) : ℕ := (a &&& b) ^^^ (a &&& c) ^^^ (b &&& c)

/-- SHA-256 big sigma 0. -/
def bsig0 (x : ℕ) : ℕ := rotr32 2 x ^^^ rotr32 13 x ^^^ rotr32 22 x

/-- SHA-256 big sigma 1. -/
def bsig1 (x : ℕ) : ℕ := rotr32 6 x ^^^ rotr32 11 x ^^^ rotr32 25 x

/-- SHA-256 small sigma 0. -/
def ssig0 (x : ℕ) : ℕ := rotr32 7 x ^^^ rotr32 18 x ^^^ (x >>> 3)

/-- SHA-256 small sigma 1. -/
def ssig1 (x : ℕ) : ℕ := rotr32 17 x ^^^ rotr32 19 x ^^^ (x >>> 10)

/-- SHA-256 round constants. -/
def K256 : List ℕ :=
  [1116352408, 1899447441, 3049323471, 3921009573, 961987163, 1508970993,
   2453635748, 2870763221, 3624381080, 310598401, 607225278, 1426881987,
   1925078388, 2162078206, 2614888103, 3248222580, 3835390401, 4022224774,
   264347078, 604807628, 770255983, 1249150122, 1555081692, 1996064986,
   2554220882, 2821834349, 2952996808, 3210313671, 3336571891, 3584528711,
   113926993, 338241895, 666307205, 773529912, 1294757372, 1396182291,
   1695183700, 1986661051, 2177026350, 2456956037, 2730485921, 2820302411,
   3259730800, 3345764771, 3516065817, 3600352804, 4094571909, 275423344,
   430227734, 506948616, 659060556, 883997877, 958139571, 1322822218,
   1537002063, 1747873779, 1955562222, 2024104815, 2227730452, 2361852424,
   2428436474, 2756734187, 3204031479, 3329325298]

/-- SHA-256 initial hash value. -/
def H256 : List ℕ :=
  [1779033703, 3144134277, 1013904242, 2773480762, 1359893119, 2600822924,
   528734635, 1541459225]

/-- Big-endian bytes of a 64-bit length. -/
def be64 (n : ℕ) : List ℕ :=
  [(n >>> 56) % 256, (n >>> 48) % 256, (n >>> 40) % 256, (n >>> 32) % 256,
   (n >>> 24) % 256, (n >>> 16) % 256, (n >>> 8) % 256, n % 256]

/-- Big-endian bytes of a 32-bit word. -/
def be32 (n : ℕ) : List ℕ :=
  [(n >>> 24) % 256, (n >>> 16) % 256, (n >>> 8) % 256, n % 256]

/-- SHA-256 padding: the 0x80 byte, zeros to 56 mod 64, and the
big-endian bit length. -/
def sha256pad (msg : List ℕ) : List ℕ :=
  msg ++ (128 :: List.replicate ((119 - msg.length % 64) % 64) 0)
    ++ be64 (8 * msg.length)

/-- Big-endian 4-byte groups to 32-bit words. -/
def toWords : List ℕ → List ℕ
  | b0 :: b1 :: b2 :: b3 :: rest =>
    ((((b0 <<< 8) ||| b1) <<< 8 ||| b2) <<< 8 ||| b3) :: toWords rest
  | _ => []

/-- Extends the 16 block words by `n` scheduled words. -/
def scheduleExtend : List ℕ → ℕ → List ℕ
  | ws, 0 => ws
  | ws, n + 1 =>
    let i := ws.length
    let w := w32 (ssig1 (ws.getD (i - 2) 0) + ws.getD (i - 7) 0 +
      ssig0 (ws.getD (i - 15) 0) + ws.getD (i - 16) 0)
    scheduleExtend (ws ++ [w]) n

/-- One SHA-256 compression round on the eight-word state. -/
def sha256round (st : List ℕ) (kw : ℕ × ℕ) : List ℕ :=
  match st with
  | [a, b, c, d, e, f, g, h] =>
    let t1 := w32 (h + bsig1 e + shaCh e f g + kw.1 + kw.2)
    let t2 := w32 (bsig0 a + shaMaj a b c)
    [w32 (t1 + t2), a, b, c, w32 (d + t1), e, f, g]
  | other => other

/-- Compression of one 64-byte block into the running hash. -/
def compressBlock (h : List ℕ) (block : List ℕ) : List ℕ :=
  let ws := scheduleExtend (toWords block) 48
  let st := (K256.zip ws).foldl sha256round h
  List.zipWith (fun x y => w32 (x + y)) h st

/-- Splits a byte list into 64-byte chunks (fuel-bounded structural
recursion; the fuel always suffices). -/
def chunks64fuel : ℕ → List ℕ → List (List ℕ)
  | 0, _ => []
  | _ + 1, [] => []
  | n + 1, l => l.take 64 :: chunks64fuel n (l.drop 64)

/-- Splits a byte list into 64-byte chunks. -/
def chunks64 (l : List ℕ) : List (List ℕ) := chunks64fuel (l.length + 1) l

/-- SHA-256 of a byte sequence, as its 32-byte digest. -/
def sha256bytes (msg : List ℕ) : List ℕ :=
  (((chunks64 (sha256pad msg)).foldl compressBlock H256).map be32).flatten

/-- A hexadecimal digit character. -/
def hexDigit (n : ℕ) : Char :=
  if n < 10 then Char.ofNat (48 + n) else Char.ofNat (87 + n)

/-- Lower-case hexadecimal encoding of bytes (`hex.EncodeToString`). -/
def hexEncode (bs : List ℕ) : Str :=
  (bs.map (fun b => [hexDigit (b / 16), hexDigit (b % 16)])).flatten

/-- The bytes of a string (the code points, which agree with the UTF-8
bytes on the ASCII range the keys use). -/
def strBytes (s : Str) : List ℕ := s.map Char.toNat

/-- The SHA-256 digest of a string, hex-encoded. -/
def sha256hex (s : Str) : Str := hexEncode (sha256bytes (strBytes s))

/-- SHA-256 test vector: the digest of `abc`. -/
theorem sha256hex_abc :
    sha256hex (strOf ("abc"))
      = strOf ("ba7816bf8f01cfea414140de5dae2223b00361a396177a9cb410ff61f20015ad") := by
  decide

/-- `internal/classifier` `ClassifyRequest` (provider/model selection
carries no cache content and is omitted). -/
structure ClassifyRequest where
  emailSubject : Str
  emailBody : Str
  emailFrom : Str
deriving DecidableEq, Repr

/-- `internal/classifier` `cacheEntry`: a cached response with its
insertion instant (hours). -/
structure CacheEntry where
  response : ClassifyResponse
  timestamp : ℚ
deriving DecidableEq, Repr

/-- The classifier client's cache state: the map modelled as an
association list in insertion order, plus the enabled flag. -/
structure ClientState where
  cache : List (Str × CacheEntry)
  cacheEnabled : Bool
deriving DecidableEq, Repr

/-- `cacheExpiry`: 24 hours. -/
def cacheExpiry : ℚ := 24

/-- `Client.cacheKey`: the hex-encoded SHA-256 of `subject|from`. -/
def cacheKey (req : ClassifyRequest) : Str :=
  sha256hex (req.emailSubject ++ '|' :: req.emailFrom)

/-- `Client.getCached`: a lookup that returns nothing when the cache is
disabled, the key is absent, or the entry is older than the expiry
(lazy expiry: the entry itself is not removed by reading). -/
def getCached (c : ClientState) (key : Str) (now : ℚ) : Option ClassifyResponse :=
  if ¬ c.cacheEnabled then none
  else
    match c.cache.find? (fun kv => kv.1 == key) with
    | none => none
    | some kv =>
      if now - kv.2.timestamp > cacheExpiry then none else some kv.2.response

/-- Map insertion on the association list: replace the key's entry or
append a fresh one. -/
def cacheInsert (cache : List (Str × CacheEntry)) (key : Str)
    (resp : ClassifyResponse) (now : ℚ) : List (Str × CacheEntry) :=
  if cache.any (fun kv => kv.1 == key) then
    cache.map (fun kv => if kv.1 == key then (key, ⟨resp, now⟩) else kv)
  else cache ++ [(key, ⟨resp, now⟩)]

/-- `Client.setCache`: a no-op when disabled; otherwise stores the entry
and, when the cache then exceeds 1000 entries, removes the expired
ones. -/
def setCache (c : ClientState) (key : Str) (resp : ClassifyResponse)
    (now : ℚ) : ClientState :=
  if ¬ c.cacheEnabled then c
  else
    let inserted := cacheInsert c.cache key resp now
    if inserted.length > 1000 then
      let pruned :=
        inserted.filter (fun kv => ¬ (now - kv.2.timestamp > cacheExpiry))
      { c with cache := pruned }
    else { c with cache := inserted }

/-- `Client.Classify` as a state transition: a cache hit returns the
cached response without an upstream call; a miss performs the upstream
call (`upstream` its successful response) and caches the result. The
third component records whether the upstream HTTP request was made. -/
def classifyStep (c : ClientState) (req : ClassifyRequest) (now : ℚ)
    (upstream : ClassifyResponse) : ClassifyResponse × ClientState × Bool :=
  match getCached c (cacheKey req) now with
  | some cached => (cached, c, false)
  | none => (upstream, setCache c (cacheKey req) upstream now, true)

theorem find?_filter_of_first {α} (p keep : α → Bool) (l : List α) (x : α)
    (hfind : l.find? p = some x) (hx : keep x = true) :
    (l.filter keep).find? p = some x := by
  induction l with
  | nil => cases hfind
  | cons a t ih =>
    by_cases hp : p a = true
    · rw [List.find?_cons_of_pos _ hp] at hfind
      injection hfind with hax
      subst hax
      rw [List.filter_cons_of_pos hx, List.find?_cons_of_pos _ hp]
    · rw [List.find?_cons_of_neg _ hp] at hfind
      by_cases hk : keep a = true
      · rw [List.filter_cons_of_pos hk, List.find?_cons_of_neg _ hp]
        exact ih hfind
      · rw [List.filter_cons_of_neg (by simpa using hk)]
        exact ih hfind

theorem find?_map_replace (cache : List (Str × CacheEntry)) (key : Str)
    (en : CacheEntry) (h : cache.any (fun kv => kv.1 == key) = true) :
    (cache.map (fun kv => if kv.1 == key then (key, en) else kv)).find?
      (fun kv => kv.1 == key) = some (key, en) := by
  induction cache with
  | nil => cases h
  | cons a t ih =>
    by_cases ha : (a.1 == key) = true
    · rw [List.map_cons, if_pos ha, List.find?_cons_of_pos _ (by simp)]
    · rw [List.map_cons, if_neg ha, List.find?_cons_of_neg _ (by simp [ha])]
      apply ih
      rw [List.any_cons] at h
      have ha2 : (a.1 == key) = false := by
        cases hab : (a.1 == key) with
        | true => exact absurd hab ha
        | false => rfl
      rw [ha2, Bool.false_or] at h
      exact h

theorem find?_cacheInsert_self (cache : List (Str × CacheEntry)) (key : Str)
    (resp : ClassifyResponse) (t : ℚ) :
    (cacheInsert cache key resp t).find? (fun kv => kv.1 == key)
      = some (key, ⟨resp, t⟩) := by
  unfold cacheInsert
  by_cases h : cache.any (fun kv => kv.1 == key) = true
  · rw [if_pos h]
    exact find?_map_replace cache key ⟨resp, t⟩ h
  · rw [if_neg h]
    rw [find?_append_of_none _ _ _ (List.find?_eq_none.mpr ?_),
      List.find?_cons_of_pos _ (by simp)]
    intro kv hkv hp
    exact h (List.any_eq_true.mpr ⟨kv, hkv, hp⟩)

theorem setCache_enabled (c : ClientState) (key : Str)
    (resp : ClassifyResponse) (t : ℚ) :
    (setCache c key resp t).cacheEnabled = c.cacheEnabled := by
  unfold setCache
  by_cases hen : c.cacheEnabled = true
  · rw [if_neg (by simp [hen])]
    dsimp only
    by_cases hlen : (cacheInsert c.cache key resp t).length > 1000
    · rw [if_pos hlen]
    · rw [if_neg hlen]
  · rw [if_pos (by simpa using hen)]

theorem setCache_find_self (c : ClientState) (key : Str)
    (resp : ClassifyResponse) (t : ℚ) (hen : c.cacheEnabled = true) :
    (setCache c key resp t).cache.find? (fun kv => kv.1 == key)
      = some (key, ⟨resp, t⟩) := by
  unfold setCache
  rw [if_neg (by simp [hen])]
  dsimp only
  by_cases hlen : (cacheInsert c.cache key resp t).length > 1000
  · rw [if_pos hlen]
    exact find?_filter_of_first _ _ _ _ (find?_cacheInsert_self c.cache key resp t)
      (by simp [cacheExpiry, sub_self])
  · rw [if_neg hlen]
    exact find?_cacheInsert_self c.cache key resp t

theorem getCached_after_set (c : ClientState) (key : Str)
    (resp : ClassifyResponse) (t now : ℚ) (hen : c.cacheEnabled = true) :
    getCached (setCache c key resp t) key now
      = if now - t > cacheExpiry then none else some resp := by
  have hen2 : (setCache c key resp t).cacheEnabled = true := by
    rw [setCache_enabled, hen]
  unfold getCached
  rw [if_neg (by simp [hen2]), setCache_find_self c key resp t hen]

/-- C8. With the cache enabled, two `Classify` calls with identical
subject and from within 24 hours make exactly one upstream HTTP call:
the cache key is the hex-encoded SHA-256 of `subject|from`, the first
call (a miss) goes upstream and caches the response, the second returns
the cached response without an upstream call; the entry expires lazily —
a read more than 24 hours later returns nothing — and an insertion that
leaves the cache over 1000 entries removes exactly the expired
entries, while a smaller insertion prunes nothing. -/
theorem classify_cache_spec (c : ClientState) (r₁ r₂ : ClassifyRequest)
    (t₁ t₂ : ℚ) (u₁ u₂ : ClassifyResponse)
    (hs : r₁.emailSubject = r₂.emailSubject)
    (hf : r₁.emailFrom = r₂.emailFrom)
    (hen : c.cacheEnabled = true)
    (hmiss : getCached c (cacheKey r₁) t₁ = none)
    (h24 : ¬ (t₂ - t₁ > cacheExpiry)) :
    cacheKey r₂ = sha256hex (r₂.emailSubject ++ '|' :: r₂.emailFrom) ∧
    (classifyStep c r₁ t₁ u₁).2.2 = true ∧
    (classifyStep (classifyStep c r₁ t₁ u₁).2.1 r₂ t₂ u₂).2.2 = false ∧
    (classifyStep (classifyStep c r₁ t₁ u₁).2.1 r₂ t₂ u₂).1 = u₁ ∧
    (∀ t₃, t₃ - t₁ > cacheExpiry →
      getCached (classifyStep c r₁ t₁ u₁).2.1 (cacheKey r₁) t₃ = none) ∧
    (∀ (key : Str) (u : ClassifyResponse) (now : ℚ),
      ((cacheInsert c.cache key u now).length > 1000 →
        (setCache c key u now).cache = (cacheInsert c.cache key u now).filter
          (fun kv => ¬ (now - kv.2.timestamp > cacheExpiry))) ∧
      (¬ (cacheInsert c.cache key u now).length > 1000 →
        (setCache c key u now).cache = cacheInsert c.cache key u now)) := by
  have hkey : cacheKey r₂ = cacheKey r₁ := by
    unfold cacheKey
    rw [hs, hf]
  have hstate : (classifyStep c r₁ t₁ u₁).2.1
      = setCache c (cacheKey r₁) u₁ t₁ := by
    unfold classifyStep
    rw [hmiss]
  refine ⟨rfl, ?_, ?_, ?_, ?_, ?_⟩
  · unfold classifyStep
    rw [hmiss]
  · unfold classifyStep
    rw [hmiss]
    dsimp only
    rw [hkey, getCached_after_set c (cacheKey r₁) u₁ t₁ t₂ hen, if_neg h24]
  · unfold classifyStep
    rw [hmiss]
    dsimp only
    rw [hkey, getCached_after_set c (cacheKey r₁) u₁ t₁ t₂ hen, if_neg h24]
  · intro t₃ h3
    rw [hstate, getCached_after_set c (cacheKey r₁) u₁ t₁ t₃ hen, if_pos h3]
  · intro key u now
    constructor
    · intro hlen
      unfold setCache
      rw [if_neg (by simp [hen])]
      dsimp only
      rw [if_pos hlen]
    · intro hlen
      unfold setCache
      rw [if_neg (by simp [hen])]
      dsimp only
      rw [if_neg hlen]

/-- A fresh classifier client state with caching on. -/
def sampleClient : ClientState := { cache := [], cacheEnabled := true }

/-- First classify request of the cache scenario. -/
def sampleReq1 : ClassifyRequest :=
  ⟨strOf ("Role at Acme"), strOf ("body one"), strOf ("alice@acme.com")⟩

/-- Second request: same subject and from, different body. -/
def sampleReq2 : ClassifyRequest :=
  ⟨strOf ("Role at Acme"), strOf ("another body"), strOf ("alice@acme.com")⟩

/-- Witness for C8: on a fresh client, the first of two same-key calls
within 24 hours goes upstream and the second does not. -/
theorem classify_cache_spec_witness :
    (classifyStep sampleClient sampleReq1 0 sampleMidConfVerdict).2.2
      = true ∧
    (classifyStep
      (classifyStep sampleClient sampleReq1 0 sampleMidConfVerdict).2.1
      sampleReq2 1 sampleLowConfVerdict).2.2 = false :=
  ⟨(classify_cache_spec sampleClient sampleReq1 sampleReq2 0 1
      sampleMidConfVerdict sampleLowConfVerdict rfl rfl rfl rfl
      (by norm_num [cacheExpiry])).2.1,
   (classify_cache_spec sampleClient sampleReq1 sampleReq2 0 1
      sampleMidConfVerdict sampleLowConfVerdict rfl rfl rfl rfl
      (by norm_num [cacheExpiry])).2.2.1⟩
